import Mathlib

/-!
Verification of the WattTrace carbon-footprint analyzer core.

This file gives a shallow embedding of the analyzer's data model and of the
fragments of its two AST walkers that the verified properties are about, and
proves (or refutes) the stated properties over that embedding.

Modelling conventions, fixed once here:
* JavaScript numbers are modelled by `Int` (the analyzer only ever produces
  integral counts and multipliers on these code paths) and by `Rat` for the
  energy/carbon arithmetic; IEEE-754 rounding is not modelled.
* `Math.floor(a / b)` on integers is floor division (`Int.fdiv`), the JS `%`
  operator is truncated remainder (`Int.tmod`), and `Math.ceil(a / b)` is
  modelled by `jsCeilDiv` below.  Division by zero, which in JS produces
  `Infinity`/`NaN`, is outside the modelled behaviour (no verified property
  exercises it).
* A JS `Map` whose twelve keys are always populated is modelled by a total
  function out of the key type; `Map.set`/`Map.get` shadowing on the constant
  tables is modelled by cons/first-lookup on an association list.
-/

-- =============================================================================
-- constants.ts — operation kinds, weights, model constants
-- =============================================================================

/-- The closed set of twelve operation kinds (`OpType` in constants.ts). -/
inductive OpType where
  | addition
  | subtraction
  | multiplication
  | division
  | assignment
  | comparison
  | array_access
  | function_call
  | memory_allocation
  | conditional_branch
  | io_operation
  | network_operation
deriving DecidableEq, Fintype

/-- `ALL_OP_TYPES`: the twelve kinds in declaration order. -/
def ALL_OP_TYPES : List OpType :=
  [.addition, .subtraction, .multiplication, .division, .assignment, .comparison,
   .array_access, .function_call, .memory_allocation, .conditional_branch,
   .io_operation, .network_operation]

/-- `OPERATION_WEIGHTS` from constants.ts. -/
def OPERATION_WEIGHTS : OpType → Int
  | .addition => 1
  | .subtraction => 1
  | .multiplication => 2
  | .division => 3
  | .assignment => 1
  | .comparison => 1
  | .array_access => 2
  | .function_call => 5
  | .memory_allocation => 10
  | .conditional_branch => 1
  | .io_operation => 50
  | .network_operation => 100

/-- `ENERGY_PER_OPERATION_JOULES = 3e-9`, as an exact rational. -/
def ENERGY_PER_OPERATION_JOULES : Rat := 3 / 1000000000

/-- `JOULES_PER_KWH = 3_600_000`. -/
def JOULES_PER_KWH : Rat := 3600000

/-- `CARBON_INTENSITY_G_PER_KWH = 475`. -/
def CARBON_INTENSITY_G_PER_KWH : Rat := 475

/-- `DEFAULT_LOOP_ITERATIONS = 100`. -/
def DEFAULT_LOOP_ITERATIONS : Int := 100

/-- `DEFAULT_RECURSION_DEPTH = 10`. -/
def DEFAULT_RECURSION_DEPTH : Int := 10

/-- `ASSUMED_DAILY_USER_EXECUTIONS = 1_000`. -/
def ASSUMED_DAILY_USER_EXECUTIONS : Rat := 1000

/-- `ASSUMED_DAILY_SERVER_REQUESTS = 10_000`. -/
def ASSUMED_DAILY_SERVER_REQUESTS : Rat := 10000

/-- `SERVER_PUE = 1.58`, as an exact rational. -/
def SERVER_PUE : Rat := 158 / 100

/-- `NETWORK_ENERGY_PER_REQUEST_J = 0.001`, as an exact rational. -/
def NETWORK_ENERGY_PER_REQUEST_J : Rat := 1 / 1000

/-- `DEVICE_POWER_OVERHEAD = 1.2`, as an exact rational. -/
def DEVICE_POWER_OVERHEAD : Rat := 12 / 10

/-- `DEV_ENVIRONMENT_MULTIPLIER = 5`. -/
def DEV_ENVIRONMENT_MULTIPLIER : Rat := 5

-- =============================================================================
-- models.ts — OperationCount
-- =============================================================================

/-- `OperationCount.counts`: a `Map<OpType, number>` that always carries all
twelve keys (the constructor seeds every kind with 0), modelled as a total
function.  The constructor's all-zero state is `OperationCount.empty`. -/
def OperationCount := OpType → Int

instance : DecidableEq OperationCount :=
  fun a b => decidable_of_iff (∀ k, a k = b k) ⟨funext, fun h k => by rw [h]⟩

/-- `new OperationCount()`: every kind present with count 0. -/
def OperationCount.empty : OperationCount := fun _ => 0

/-- `OperationCount.add(opType, count)`:
`counts.set(opType, (counts.get(opType) || 0) + count)`. -/
def OperationCount.add (c : OperationCount) (opType : OpType) (count : Int) : OperationCount :=
  fun k => if k = opType then c opType + count else c k

/-- `OperationCount.merge(other)`: pointwise addition over the twelve keys
(`other.counts` always holds exactly the twelve keys). -/
def OperationCount.merge (c other : OperationCount) : OperationCount :=
  fun k => c k + other k

/-- `OperationCount.scale(factor)`: a fresh counter with every count
multiplied by the factor. -/
def OperationCount.scale (c : OperationCount) (factor : Int) : OperationCount :=
  fun k => c k * factor

/-- `OperationCount.totalWeighted`: Σ count × weight over the stored keys. -/
def OperationCount.totalWeighted (c : OperationCount) : Int :=
  (ALL_OP_TYPES.map (fun k => c k * OPERATION_WEIGHTS k)).sum

/-- `OperationCount.totalRaw`: Σ count over the stored keys. -/
def OperationCount.totalRaw (c : OperationCount) : Int :=
  (ALL_OP_TYPES.map (fun k => c k)).sum

-- =============================================================================
-- models.ts — FunctionAnalysis and AnalysisResult
-- =============================================================================

/-- `FunctionAnalysis` (the fields the verified properties depend on; the
`lineNumber`/`loopDepth`/`maxNesting`/`calls` bookkeeping fields carry no
operation counts and are not tracked). -/
structure FunctionAnalysis where
  name : String
  operations : OperationCount
  isRecursive : Bool

/-- `FunctionAnalysis.weightedOps`. -/
def FunctionAnalysis.weightedOps (f : FunctionAnalysis) : Int :=
  f.operations.totalWeighted

/-- `FunctionAnalysis.energyJoules`. -/
def FunctionAnalysis.energyJoules (f : FunctionAnalysis) : Rat :=
  (f.weightedOps : Rat) * ENERGY_PER_OPERATION_JOULES

/-- `AnalysisResult` (functions in the order they were pushed, the global
counter, and the recorded assumption strings). -/
structure AnalysisResult where
  language : String
  filePath : Option String
  functions : List FunctionAnalysis
  globalOperations : OperationCount
  assumptions : List String

/-- `AnalysisResult.totalOperations`: start from a fresh counter, merge
`globalOperations`, then merge each function's counter in order. -/
def AnalysisResult.totalOperations (r : AnalysisResult) : OperationCount :=
  (r.functions.map (·.operations)).foldl OperationCount.merge
    (OperationCount.empty.merge r.globalOperations)

/-- `AnalysisResult.totalWeightedOps`. -/
def AnalysisResult.totalWeightedOps (r : AnalysisResult) : Int :=
  r.totalOperations.totalWeighted

/-- `AnalysisResult.energyJoules`. -/
def AnalysisResult.energyJoules (r : AnalysisResult) : Rat :=
  (r.totalWeightedOps : Rat) * ENERGY_PER_OPERATION_JOULES

/-- `AnalysisResult.energyKwh`. -/
def AnalysisResult.energyKwh (r : AnalysisResult) : Rat :=
  r.energyJoules / JOULES_PER_KWH

/-- `AnalysisResult.carbonGrams`. -/
def AnalysisResult.carbonGrams (r : AnalysisResult) : Rat :=
  r.energyKwh * CARBON_INTENSITY_G_PER_KWH

-- =============================================================================
-- models.ts — three-tier carbon breakdown
-- =============================================================================

/-- `CategoryFootprint` (the numeric fields; the free-text description is not
modelled). -/
structure CategoryFootprint where
  label : String
  energyJoules : Rat
  carbonGrams : Rat

/-- `CarbonBreakdown`. -/
structure CarbonBreakdown where
  userEnd : CategoryFootprint
  developerEnd : CategoryFootprint
  serverSide : CategoryFootprint
  total : CategoryFootprint

/-- `AnalysisResult.carbonBreakdown`, computed exactly as in models.ts. -/
def AnalysisResult.carbonBreakdown (r : AnalysisResult) : CarbonBreakdown :=
  let baseJ := r.energyJoules
  let userJ := baseJ * DEVICE_POWER_OVERHEAD * ASSUMED_DAILY_USER_EXECUTIONS
  let userCO2 := (userJ / JOULES_PER_KWH) * CARBON_INTENSITY_G_PER_KWH
  let devJ := baseJ * DEV_ENVIRONMENT_MULTIPLIER
  let devCO2 := (devJ / JOULES_PER_KWH) * CARBON_INTENSITY_G_PER_KWH
  let serverComputeJ := baseJ * SERVER_PUE * ASSUMED_DAILY_SERVER_REQUESTS
  let networkJ := NETWORK_ENERGY_PER_REQUEST_J * ASSUMED_DAILY_SERVER_REQUESTS
  let serverJ := serverComputeJ + networkJ
  let serverCO2 := (serverJ / JOULES_PER_KWH) * CARBON_INTENSITY_G_PER_KWH
  let totalJ := userJ + devJ + serverJ
  let totalCO2 := userCO2 + devCO2 + serverCO2
  { userEnd := { label := "User End", energyJoules := userJ, carbonGrams := userCO2 }
    developerEnd := { label := "Developer End", energyJoules := devJ, carbonGrams := devCO2 }
    serverSide := { label := "Server Side", energyJoules := serverJ, carbonGrams := serverCO2 }
    total := { label := "Total", energyJoules := totalJ, carbonGrams := totalCO2 } }

-- =============================================================================
-- models.ts — hotspots
-- =============================================================================

/-- The comparator order used by `hotspots`: the ECMAScript comparator
`(a, b) => b.weightedOps - a.weightedOps` keeps `a` before `b` exactly when
`b.weightedOps ≤ a.weightedOps`. -/
def hotspotOrder (a b : FunctionAnalysis) : Prop :=
  b.weightedOps ≤ a.weightedOps

instance : DecidableRel hotspotOrder := fun a b => by
  unfold hotspotOrder; infer_instance

/-- `AnalysisResult.hotspots`:
`[...functions].sort((a, b) => b.weightedOps - a.weightedOps).slice(0, 5)`.
`Array.prototype.sort` is a stable sort consistent with the comparator
(ECMAScript 2019), modelled by the stable `List.insertionSort`. -/
def AnalysisResult.hotspots (r : AnalysisResult) : List FunctionAnalysis :=
  (r.functions.insertionSort hotspotOrder).take 5

-- =============================================================================
-- pythonTreeSitterAnalyzer.ts — syntax fragment
-- =============================================================================

/-- The `function` child of a `call` node: an identifier, an attribute chain,
or some other callee expression (`cother`).  Callee chains carry no counted
operations in the source (`analyzeExpression` never descends into the callee),
so only their name structure is modelled. -/
inductive PyCallee where
  | cid (name : String)
  | cattr (obj : PyCallee) (attr : String)
  | cother
deriving DecidableEq

/-- The left-hand side of an `assignment` node: a bare identifier or any
other target (only its being a bare identifier matters to the source). -/
inductive PyLhs where
  | lid (name : String)
  | lother
deriving DecidableEq

mutual

/-- Expression nodes of the analyzed Python fragment, one constructor per
tree-sitter node kind handled by `analyzeExpression`. -/
inductive PyExpr where
  | binOp (op : String) (left right : PyExpr)
  | cmpOp (operands : PyExprList) (ops : List String)
  | boolOp (left right : PyExpr)
  | notOp (arg : PyExpr)
  | unaryOp (op : String) (arg : PyExpr)
  | callE (callee : PyCallee) (args : PyArgs)
  | subscript (value index : PyExpr)
  | ident (name : String)
  | intLit (value : Int)
  | stringLit (text : String)
  | listLit (elts : PyExprList)
  | tupleLit (elts : PyExprList)
  | paren (inner : PyExpr)

/-- A list of expression nodes (named children). -/
inductive PyExprList where
  | nil
  | cons (e : PyExpr) (rest : PyExprList)

/-- Arguments of a `call` node: positional or keyword. -/
inductive PyArgs where
  | nil
  | pos (e : PyExpr) (rest : PyArgs)
  | kw (value : PyExpr) (rest : PyArgs)

/-- Statement nodes of the analyzed Python fragment, one constructor per
tree-sitter node kind handled by `analyzeNode`. -/
inductive PyStmt where
  | exprStmt (exprs : PyExprList)
  | assign (lhs : PyLhs) (rhs : PyExpr)
  | augAssign (leftText : String) (op : String) (rhs : PyExpr)
  | forStmt (iterable : PyOptExpr) (body : PyBlock) (elseBody : PyOptBlock)
  | whileStmt (condition : PyOptExpr) (body : PyBlock) (elseBody : PyOptBlock)
  | ifStmt (condition : PyOptExpr) (consequence : PyBlock) (alternative : PyOptAlt)
  | returnStmt (exprs : PyExprList)
  | passStmt
  | breakStmt
  | continueStmt
  | raiseStmt
  | deleteStmt
  | funcDef (name : String) (params : PyExprList) (body : PyBlock)

/-- A list of statement nodes (a body's named children). -/
inductive PyBlock where
  | nil
  | cons (s : PyStmt) (rest : PyBlock)

/-- An optional expression child (e.g. a missing field). -/
inductive PyOptExpr where
  | none
  | some (e : PyExpr)

/-- An optional block child (e.g. a loop's `else_clause` body). -/
inductive PyOptBlock where
  | none
  | some (b : PyBlock)

/-- The `alternative` field of an `if_statement`: an `elif_clause`
(dispatched back through `analyzeNode`) or an `else_clause` body. -/
inductive PyIfAlt where
  | elifClause (s : PyStmt)
  | elseClause (body : PyBlock)

/-- An optional `alternative` child. -/
inductive PyOptAlt where
  | none
  | some (a : PyIfAlt)

end

-- =============================================================================
-- pythonTreeSitterAnalyzer.ts — helpers
-- =============================================================================

/-- `getCallName`: the simple function name of a call — an identifier's text,
or an attribute's final attribute text. -/
def PyCallee.getCallName : PyCallee → Option String
  | .cid name => Option.some name
  | .cattr _ attr => Option.some attr
  | .cother => Option.none

/-- The dotted-name parts collected by `getFullCallName`: attribute texts from
the inside out, with the base identifier prepended when the chain bottoms out
in one. -/
def PyCallee.parts : PyCallee → List String
  | .cid name => [name]
  | .cattr obj attr => obj.parts ++ [attr]
  | .cother => []

/-- `getFullCallName`: the parts joined with dots, or nothing when no part
was collected. -/
def PyCallee.getFullCallName (c : PyCallee) : Option String :=
  if c.parts.isEmpty then Option.none else Option.some (String.intercalate "." c.parts)

/-- Substring containment (`String.includes` in the source). -/
def strContainsSub (hay needle : String) : Bool :=
  hay.toList.tails.any (fun t => needle.toList.isPrefixOf t)

/-- `isComparisonOp` from pythonTreeSitterAnalyzer.ts. -/
def isComparisonOp (t : String) : Bool :=
  ["<", ">", "<=", ">=", "==", "!=", "<>", "in", "is", "not"].contains t

/-- `IO_FUNCTIONS['python']`. -/
def pyIoFunctions : List String :=
  ["print", "input", "open", "read", "write", "readline", "readlines",
   "writelines", "close", "flush", "seek", "tell"]

/-- `IO_CALL_SUBSTRINGS['python']`. -/
def pyIoCallSubstrings : List String :=
  ["print", "write", "read", "input", "open"]

/-- `NETWORK_FUNCTIONS['python']`. -/
def pyNetworkFunctions : List String :=
  ["request", "get", "post", "put", "delete", "patch", "urlopen", "connect",
   "send", "recv", "socket", "fetch", "download", "upload"]

/-- `NETWORK_CALL_SUBSTRINGS['python']`. -/
def pyNetworkCallSubstrings : List String :=
  ["request", "urlopen", "socket", "fetch"]

/-- `ALLOC_FUNCTIONS['python']`. -/
def pyAllocFunctions : List String :=
  ["list", "dict", "set", "tuple", "bytearray", "array", "zeros", "ones",
   "empty", "malloc", "calloc", "DataFrame", "Series", "ndarray", "deepcopy", "copy"]

/-- The per-analysis constant table `variableConstants`: `Map.set` shadows the
previous binding, so it is modelled by cons with first-match lookup. -/
def VarMap := List (String × Int)

/-- `Math.ceil(a / b)` on integers (for nonzero `b`). -/
def jsCeilDiv (a b : Int) : Int := -(Int.fdiv (-a) b)

/-- The number of expressions in a list (`namedChildCount`). -/
def PyExprList.length : PyExprList → Nat
  | .nil => 0
  | .cons _ rest => rest.length + 1

/-- Convert an embedded expression list to a `List`. -/
def PyExprList.toList : PyExprList → List PyExpr
  | .nil => []
  | .cons e rest => e :: rest.toList

/-- `getCallArguments`: the positional arguments of a call (keyword arguments
and splats filtered out). -/
def PyArgs.positional : PyArgs → List PyExpr
  | .nil => []
  | .pos e rest => e :: rest.positional
  | .kw _ rest => rest.positional

/-- `resolveConstantExpr` from pythonTreeSitterAnalyzer.ts.  Integer literals
stand for their parsed value (`parseIntLiteral`); `//` is `Math.floor` of the
quotient and `%` the JS remainder, both unresolved on a zero divisor; a unary
`+`/`-` resolves only over a literal or identifier operand; `len(...)` is the
only call that resolves (to the default loop count). -/
def resolveConstantExpr (vm : VarMap) : PyExpr → Option Int
  | .intLit v => Option.some v
  | .ident n => List.lookup n vm
  | .paren inner => resolveConstantExpr vm inner
  | .binOp op l r =>
      match resolveConstantExpr vm l, resolveConstantExpr vm r with
      | Option.some lv, Option.some rv =>
          if op = "+" then Option.some (lv + rv)
          else if op = "-" then Option.some (lv - rv)
          else if op = "*" then Option.some (lv * rv)
          else if op = "//" then
            (if rv ≠ 0 then Option.some (Int.fdiv lv rv) else Option.none)
          else if op = "%" then
            (if rv ≠ 0 then Option.some (Int.tmod lv rv) else Option.none)
          else Option.none
      | _, _ => Option.none
  | .unaryOp op arg =>
      match arg with
      | .intLit _ | .ident _ =>
          (match resolveConstantExpr vm arg with
           | Option.some v =>
               if op = "-" then Option.some (-v)
               else if op = "+" then Option.some v
               else Option.none
           | Option.none => Option.none)
      | _ => Option.none
  | .callE callee _ =>
      if callee.getCallName = Option.some "len" then Option.some DEFAULT_LOOP_ITERATIONS
      else Option.none
  | _ => Option.none

/-- The `range(...)` arm of `estimateForIterations` (shared with the
`enumerate(range(...))` arm, which re-enters `estimateForIterations` on the
inner `range` call and can only reach this arm).  The source's 1-argument
identifier re-check and `range(len(...))` re-check are unreachable —
`resolveConstantExpr` already consults the constant table and resolves
`len(...)` — so both fall into the default here as they do there. -/
def estimateRangeIterations (vm : VarMap) (args : List PyExpr) : Int :=
  match args with
  | [a] =>
      (match resolveConstantExpr vm a with
       | Option.some v => max 0 v
       | Option.none => DEFAULT_LOOP_ITERATIONS)
  | [a, b] =>
      (match resolveConstantExpr vm a, resolveConstantExpr vm b with
       | Option.some av, Option.some bv => max 0 (bv - av)
       | _, _ => DEFAULT_LOOP_ITERATIONS)
  | [a, b, c] =>
      (match resolveConstantExpr vm a, resolveConstantExpr vm b, resolveConstantExpr vm c with
       | Option.some start, Option.some stop, Option.some step =>
           if step ≠ 0 then max 0 (jsCeilDiv (stop - start) step)
           else DEFAULT_LOOP_ITERATIONS
       | _, _, _ => DEFAULT_LOOP_ITERATIONS)
  | _ => DEFAULT_LOOP_ITERATIONS

/-- `estimateForIterations` from pythonTreeSitterAnalyzer.ts. -/
def pyEstimateForIterations (vm : VarMap) : PyExpr → Int
  | .callE callee args =>
      (match callee.getCallName with
       | Option.some n =>
           if n = "range" then estimateRangeIterations vm args.positional
           else if n = "enumerate" then
             (match args.positional with
              | PyExpr.callE inner innerArgs :: _ =>
                  if inner.getCallName = Option.some "range" then
                    estimateRangeIterations vm innerArgs.positional
                  else DEFAULT_LOOP_ITERATIONS
              | _ => DEFAULT_LOOP_ITERATIONS)
           else DEFAULT_LOOP_ITERATIONS
       | Option.none => DEFAULT_LOOP_ITERATIONS)
  | .ident n =>
      (match List.lookup n vm with
       | Option.some v => v
       | Option.none => DEFAULT_LOOP_ITERATIONS)
  | .stringLit text =>
      let content := (text.drop 1).dropRight 1
      if content.length = 0 then DEFAULT_LOOP_ITERATIONS else (content.length : Int)
  | .listLit elts => (elts.length : Int)
  | .tupleLit elts => (elts.length : Int)
  | _ => DEFAULT_LOOP_ITERATIONS

/-- The body scan inside `estimateWhileIterations`: the first top-level
`augmented_assignment` to the loop variable with operator `+=` whose
right-hand side resolves to a positive step returns that step (a zero,
negative, or unresolved step does not stop the scan). -/
def pyFindWhileStep (vm : VarMap) (varName : String) : PyBlock → Option Int
  | .nil => Option.none
  | .cons s rest =>
      match s with
      | .augAssign leftText op rhs =>
          if leftText = varName ∧ op = "+=" then
            (match resolveConstantExpr vm rhs with
             | Option.some step =>
                 if 0 < step then Option.some step else pyFindWhileStep vm varName rest
             | Option.none => pyFindWhileStep vm varName rest)
          else pyFindWhileStep vm varName rest
      | _ => pyFindWhileStep vm varName rest

/-- `estimateWhileIterations` from pythonTreeSitterAnalyzer.ts.  The condition
must be a `comparison_operator` with at least two operands whose first operand
is an identifier and which carries exactly one comparison token. -/
def pyEstimateWhileIterations (vm : VarMap) (condition : PyExpr) (body : PyBlock) : Int :=
  match condition with
  | .cmpOp operands ops =>
      (match operands.toList with
       | leftExpr :: r :: rs =>
           let rightExpr := (r :: rs).getLast (List.cons_ne_nil r rs)
           (match leftExpr, ops.filter isComparisonOp with
            | .ident varName, [op] =>
                if op = "<" ∨ op = "<=" then
                  (match resolveConstantExpr vm rightExpr with
                   | Option.some upper =>
                       (match pyFindWhileStep vm varName body with
                        | Option.some step => max 1 (Int.fdiv upper step)
                        | Option.none => upper)
                   | Option.none =>
                       if op = "<=" then 20 else DEFAULT_LOOP_ITERATIONS)
                else if op = ">" ∨ op = ">=" then
                  (match resolveConstantExpr vm rightExpr with
                   | Option.some lower =>
                       (match List.lookup varName vm with
                        | Option.some start => max 1 |start - lower|
                        | Option.none => DEFAULT_LOOP_ITERATIONS)
                   | Option.none => DEFAULT_LOOP_ITERATIONS)
                else DEFAULT_LOOP_ITERATIONS
            | _, _ => DEFAULT_LOOP_ITERATIONS)
       | _ => DEFAULT_LOOP_ITERATIONS)
  | _ => DEFAULT_LOOP_ITERATIONS

/-- The `call` arm of `analyzeExpression`: classify by the I/O, network, and
allocation tables, then the Python builtin heuristics (`sorted`/`sort`,
`sum`/`min`/`max`/`any`/`all`, iterator wrappers, `range`, `len`, `append`),
else one generic `function_call`. -/
def pyClassifyCall (callee : PyCallee) (multiplier : Int) : OperationCount :=
  match callee.getCallName with
  | Option.some callName =>
      let fullMatch := fun (subs : List String) =>
        match callee.getFullCallName with
        | Option.some full => subs.any (fun sub => strContainsSub full sub)
        | Option.none => false
      if pyIoFunctions.contains callName || fullMatch pyIoCallSubstrings then
        OperationCount.empty.add .io_operation multiplier
      else if pyNetworkFunctions.contains callName || fullMatch pyNetworkCallSubstrings then
        OperationCount.empty.add .network_operation multiplier
      else if pyAllocFunctions.contains callName then
        OperationCount.empty.add .memory_allocation multiplier
      else if callName = "sorted" || callName = "sort" then
        (OperationCount.empty.add .comparison (multiplier * DEFAULT_LOOP_ITERATIONS * 7)).add
          .assignment (multiplier * DEFAULT_LOOP_ITERATIONS * 7)
      else if ["sum", "min", "max", "any", "all"].contains callName then
        (OperationCount.empty.add .addition (multiplier * DEFAULT_LOOP_ITERATIONS)).add
          .comparison (multiplier * DEFAULT_LOOP_ITERATIONS)
      else if ["enumerate", "zip", "map", "filter", "reversed"].contains callName then
        OperationCount.empty.add .function_call multiplier
      else if callName = "range" then
        OperationCount.empty.add .function_call multiplier
      else if callName = "len" then
        OperationCount.empty.add .function_call multiplier
      else if callName = "append" then
        OperationCount.empty.add .memory_allocation multiplier
      else
        OperationCount.empty.add .function_call multiplier
  | Option.none => OperationCount.empty.add .function_call multiplier

mutual

/-- `analyzeExpression` from pythonTreeSitterAnalyzer.ts.  Counters are merged
in the order the source adds them; merge is pointwise addition, so grouping is
immaterial. -/
def pyAnalyzeExpr (e : PyExpr) (multiplier : Int) : OperationCount :=
  match e with
  | .binOp op l r =>
      let base :=
        if op = "+" then OperationCount.empty.add .addition multiplier
        else if op = "-" then OperationCount.empty.add .subtraction multiplier
        else if op = "*" ∨ op = "@" then OperationCount.empty.add .multiplication multiplier
        else if op = "/" ∨ op = "//" ∨ op = "%" then OperationCount.empty.add .division multiplier
        else if op = "**" then OperationCount.empty.add .multiplication (multiplier * 10)
        else OperationCount.empty.add .addition multiplier
      (base.merge (pyAnalyzeExpr l multiplier)).merge (pyAnalyzeExpr r multiplier)
  | .cmpOp operands ops =>
      let compCount : Int := (ops.countP isComparisonOp : Nat)
      (OperationCount.empty.add .comparison (multiplier * max 1 compCount)).merge
        (pyAnalyzeExprList operands multiplier)
  | .boolOp l r =>
      ((OperationCount.empty.add .comparison multiplier).merge
        (pyAnalyzeExpr l multiplier)).merge (pyAnalyzeExpr r multiplier)
  | .notOp arg =>
      (OperationCount.empty.add .comparison multiplier).merge (pyAnalyzeExpr arg multiplier)
  | .unaryOp _ arg =>
      (OperationCount.empty.add .addition multiplier).merge (pyAnalyzeExpr arg multiplier)
  | .callE callee args =>
      (pyClassifyCall callee multiplier).merge (pyAnalyzeArgs args multiplier)
  | .subscript value index =>
      ((OperationCount.empty.add .array_access multiplier).merge
        (pyAnalyzeExpr value multiplier)).merge (pyAnalyzeExpr index multiplier)
  | .ident _ => OperationCount.empty
  | .intLit _ => OperationCount.empty
  | .stringLit _ => OperationCount.empty
  | .listLit elts =>
      let base :=
        if 0 < elts.length then
          (OperationCount.empty.add .memory_allocation multiplier).add
            .assignment (multiplier * (elts.length : Int))
        else OperationCount.empty
      base.merge (pyAnalyzeExprList elts multiplier)
  | .tupleLit elts =>
      let base :=
        if 0 < elts.length then
          (OperationCount.empty.add .memory_allocation multiplier).add
            .assignment (multiplier * (elts.length : Int))
        else OperationCount.empty
      base.merge (pyAnalyzeExprList elts multiplier)
  | .paren inner => pyAnalyzeExpr inner multiplier

/-- Fold `analyzeExpression` over a list of named children. -/
def pyAnalyzeExprList (es : PyExprList) (multiplier : Int) : OperationCount :=
  match es with
  | .nil => OperationCount.empty
  | .cons e rest => (pyAnalyzeExpr e multiplier).merge (pyAnalyzeExprList rest multiplier)

/-- The argument loop of the `call` arm: a keyword argument contributes its
value's operations, any other argument contributes its own. -/
def pyAnalyzeArgs (args : PyArgs) (multiplier : Int) : OperationCount :=
  match args with
  | .nil => OperationCount.empty
  | .pos e rest => (pyAnalyzeExpr e multiplier).merge (pyAnalyzeArgs rest multiplier)
  | .kw value rest => (pyAnalyzeExpr value multiplier).merge (pyAnalyzeArgs rest multiplier)

/-- `analyzeNode` from pythonTreeSitterAnalyzer.ts.  The `loopMultiplier`
parameter is threaded exactly as in the source: loop headers charge
`multiplier × iterations` comparisons and bodies are walked at
`multiplier × iterations`; the assumption strings the source pushes while
walking carry no operation counts and are not tracked here. -/
def pyAnalyzeNode (vm : VarMap) (s : PyStmt) (loopMultiplier : Int) : OperationCount :=
  match s with
  | .exprStmt exprs => pyAnalyzeExprList exprs loopMultiplier
  | .assign _ rhs =>
      (OperationCount.empty.add .assignment loopMultiplier).merge
        (pyAnalyzeExpr rhs loopMultiplier)
  | .augAssign _ op rhs =>
      let base :=
        (OperationCount.empty.add .assignment loopMultiplier).merge
          (pyAnalyzeExpr rhs loopMultiplier)
      if op = "+=" then base.add .addition loopMultiplier
      else if op = "-=" then base.add .subtraction loopMultiplier
      else if op = "*=" ∨ op = "@=" then base.add .multiplication loopMultiplier
      else if op = "/=" ∨ op = "//=" ∨ op = "%=" then base.add .division loopMultiplier
      else base
  | .forStmt iterable body elseBody =>
      let iterations :=
        match iterable with
        | .some it => pyEstimateForIterations vm it
        | .none => DEFAULT_LOOP_ITERATIONS
      let innerMultiplier := loopMultiplier * iterations
      let headerOps := OperationCount.empty.add .comparison (loopMultiplier * iterations)
      let bodyOps := pyAnalyzeBlock vm body innerMultiplier
      let elseOps :=
        match elseBody with
        | .some b => pyAnalyzeBlock vm b loopMultiplier
        | .none => OperationCount.empty
      (headerOps.merge bodyOps).merge elseOps
  | .whileStmt condition body elseBody =>
      let iterations :=
        match condition with
        | .some c => pyEstimateWhileIterations vm c body
        | .none => DEFAULT_LOOP_ITERATIONS
      let innerMultiplier := loopMultiplier * iterations
      let condOps :=
        match condition with
        | .some c => pyAnalyzeExpr c loopMultiplier
        | .none => OperationCount.empty
      let headerOps := OperationCount.empty.add .comparison (loopMultiplier * iterations)
      let elseOps :=
        match elseBody with
        | .some b => pyAnalyzeBlock vm b loopMultiplier
        | .none => OperationCount.empty
      ((headerOps.merge condOps).merge (pyAnalyzeBlock vm body innerMultiplier)).merge elseOps
  | .ifStmt condition consequence alternative =>
      let condOps :=
        match condition with
        | .some c => pyAnalyzeExpr c loopMultiplier
        | .none => OperationCount.empty
      let altOps :=
        match alternative with
        | .some (.elifClause es) => pyAnalyzeNode vm es loopMultiplier
        | .some (.elseClause b) => pyAnalyzeBlock vm b loopMultiplier
        | .none => OperationCount.empty
      (((OperationCount.empty.add .conditional_branch loopMultiplier).merge condOps).merge
        (pyAnalyzeBlock vm consequence loopMultiplier)).merge altOps
  | .returnStmt exprs => pyAnalyzeExprList exprs loopMultiplier
  | .passStmt => OperationCount.empty
  | .breakStmt => OperationCount.empty
  | .continueStmt => OperationCount.empty
  | .raiseStmt => OperationCount.empty.add .function_call loopMultiplier
  | .deleteStmt => OperationCount.empty.add .memory_allocation loopMultiplier
  | .funcDef _ _ _ => OperationCount.empty

/-- Fold `analyzeNode` over a body's named children. -/
def pyAnalyzeBlock (vm : VarMap) (b : PyBlock) (loopMultiplier : Int) : OperationCount :=
  match b with
  | .nil => OperationCount.empty
  | .cons s rest =>
      (pyAnalyzeNode vm s loopMultiplier).merge (pyAnalyzeBlock vm rest loopMultiplier)

end

mutual

/-- `walkForCalls` restricted to recursion detection: does any `call` node
whose simple name equals `funcName` occur anywhere under this expression?
(The walk descends into every named child.) -/
def pyExprHasCall (funcName : String) (e : PyExpr) : Bool :=
  match e with
  | .binOp _ l r => pyExprHasCall funcName l || pyExprHasCall funcName r
  | .cmpOp operands _ => pyExprListHasCall funcName operands
  | .boolOp l r => pyExprHasCall funcName l || pyExprHasCall funcName r
  | .notOp arg => pyExprHasCall funcName arg
  | .unaryOp _ arg => pyExprHasCall funcName arg
  | .callE callee args =>
      callee.getCallName == Option.some funcName || pyArgsHasCall funcName args
  | .subscript value index => pyExprHasCall funcName value || pyExprHasCall funcName index
  | .ident _ => false
  | .intLit _ => false
  | .stringLit _ => false
  | .listLit elts => pyExprListHasCall funcName elts
  | .tupleLit elts => pyExprListHasCall funcName elts
  | .paren inner => pyExprHasCall funcName inner

/-- `walkForCalls` over an expression list. -/
def pyExprListHasCall (funcName : String) (es : PyExprList) : Bool :=
  match es with
  | .nil => false
  | .cons e rest => pyExprHasCall funcName e || pyExprListHasCall funcName rest

/-- `walkForCalls` over call arguments. -/
def pyArgsHasCall (funcName : String) (args : PyArgs) : Bool :=
  match args with
  | .nil => false
  | .pos e rest => pyExprHasCall funcName e || pyArgsHasCall funcName rest
  | .kw value rest => pyExprHasCall funcName value || pyArgsHasCall funcName rest

/-- `walkForCalls` over a statement (descends into every named child,
including nested function definitions, as the source does). -/
def pyStmtHasCall (funcName : String) (s : PyStmt) : Bool :=
  match s with
  | .exprStmt exprs => pyExprListHasCall funcName exprs
  | .assign _ rhs => pyExprHasCall funcName rhs
  | .augAssign _ _ rhs => pyExprHasCall funcName rhs
  | .forStmt iterable body elseBody =>
      (match iterable with
       | .some it => pyExprHasCall funcName it
       | .none => false)
      || pyBlockHasCall funcName body
      || (match elseBody with
          | .some b => pyBlockHasCall funcName b
          | .none => false)
  | .whileStmt condition body elseBody =>
      (match condition with
       | .some c => pyExprHasCall funcName c
       | .none => false)
      || pyBlockHasCall funcName body
      || (match elseBody with
          | .some b => pyBlockHasCall funcName b
          | .none => false)
  | .ifStmt condition consequence alternative =>
      (match condition with
       | .some c => pyExprHasCall funcName c
       | .none => false)
      || pyBlockHasCall funcName consequence
      || (match alternative with
          | .some (.elifClause es) => pyStmtHasCall funcName es
          | .some (.elseClause b) => pyBlockHasCall funcName b
          | .none => false)
  | .returnStmt exprs => pyExprListHasCall funcName exprs
  | .passStmt => false
  | .breakStmt => false
  | .continueStmt => false
  | .raiseStmt => false
  | .deleteStmt => false
  | .funcDef _ params body =>
      pyExprListHasCall funcName params || pyBlockHasCall funcName body

/-- `walkForCalls` over a block. -/
def pyBlockHasCall (funcName : String) (b : PyBlock) : Bool :=
  match b with
  | .nil => false
  | .cons s rest => pyStmtHasCall funcName s || pyBlockHasCall funcName rest

end

mutual

/-- `extractConstants` over a statement: an `assignment` whose left-hand side
is a bare identifier and whose right-hand side resolves against the table
built so far records the binding; the walk then descends into every child in
order.  Expressions of this fragment contain no assignment nodes, so the
descent through them is the identity and is omitted. -/
def pyExtractStmt (vm : VarMap) (s : PyStmt) : VarMap :=
  match s with
  | .assign (.lid name) rhs =>
      (match resolveConstantExpr vm rhs with
       | Option.some v => (name, v) :: vm
       | Option.none => vm)
  | .assign .lother _ => vm
  | .forStmt _ body elseBody =>
      let vm1 := pyExtractBlock vm body
      (match elseBody with
       | .some b => pyExtractBlock vm1 b
       | .none => vm1)
  | .whileStmt _ body elseBody =>
      let vm1 := pyExtractBlock vm body
      (match elseBody with
       | .some b => pyExtractBlock vm1 b
       | .none => vm1)
  | .ifStmt _ consequence alternative =>
      let vm1 := pyExtractBlock vm consequence
      (match alternative with
       | .some (.elifClause es) => pyExtractStmt vm1 es
       | .some (.elseClause b) => pyExtractBlock vm1 b
       | .none => vm1)
  | .funcDef _ _ body => pyExtractBlock vm body
  | _ => vm

/-- `extractConstants` folded over a block in statement order. -/
def pyExtractBlock (vm : VarMap) (b : PyBlock) : VarMap :=
  match b with
  | .nil => vm
  | .cons s rest => pyExtractBlock (pyExtractStmt vm s) rest

end

/-- `analyzeFunction` from pythonTreeSitterAnalyzer.ts: snapshot and extend
the constant table with the function's own assignments, detect recursion by
scanning the whole definition for a call bearing the function's short name,
walk every body statement at multiplier 1, then scale the entire counter by
`DEFAULT_RECURSION_DEPTH` when recursive.  (The snapshot restore is implicit:
the extended table is local to this call.) -/
def pyAnalyzeFunction (vm : VarMap) (className : Option String) (name : String)
    (params : PyExprList) (body : PyBlock) : FunctionAnalysis :=
  let qualifiedName :=
    match className with
    | Option.some c => c ++ "." ++ name
    | Option.none => name
  let extended := pyExtractBlock vm body
  let isRec := pyExprListHasCall name params || pyBlockHasCall name body
  let bodyOps := pyAnalyzeBlock extended body 1
  let operations := if isRec then bodyOps.scale DEFAULT_RECURSION_DEPTH else bodyOps
  { name := qualifiedName, operations := operations, isRecursive := isRec }

/-- The top-level walk of `analyze`: function definitions are pushed onto
`functions` in source order, every other statement's counts merge into the
global counter. -/
def pyAnalyzeModule (vm : VarMap) : PyBlock → (List FunctionAnalysis × OperationCount)
  | .nil => ([], OperationCount.empty)
  | .cons s rest =>
      let done := pyAnalyzeModule vm rest
      match s with
      | .funcDef n p b => (pyAnalyzeFunction vm Option.none n p b :: done.1, done.2)
      | _ => (done.1, (pyAnalyzeNode vm s 1).merge done.2)

/-- `analyze` from pythonTreeSitterAnalyzer.ts (fragment without classes and
decorators): build the constant table by the pre-pass, record the two model
assumptions, then walk the top level.  Per-loop assumption strings pushed
during the walk are not tracked. -/
def pyAnalyze (module : PyBlock) (filePath : Option String) : AnalysisResult :=
  let vm := pyExtractBlock [] module
  let walked := pyAnalyzeModule vm module
  { language := "python"
    filePath := filePath
    functions := walked.1
    globalOperations := walked.2
    assumptions :=
      ["Energy per operation: 3e-9 J",
       "Carbon intensity: 475 gCO2/kWh (global average)"] }

/-- The names of the top-level function definitions in source order. -/
def pyTopLevelNames : PyBlock → List String
  | .nil => []
  | .cons (.funcDef n _ _) rest => n :: pyTopLevelNames rest
  | .cons _ rest => pyTopLevelNames rest

-- =============================================================================
-- constants.ts — C-family classification tables
-- =============================================================================

/-- `IO_FUNCTIONS` by language key. -/
def IO_FUNCTIONS : String → List String
  | "python" => pyIoFunctions
  | "java" => ["println", "printf", "print", "read", "write", "readLine"]
  | "c" => ["printf", "scanf", "fprintf", "fscanf", "fopen", "fclose",
            "fread", "fwrite", "puts", "gets", "getchar", "putchar", "fgets", "fputs"]
  | "cpp" => ["cout", "cin", "cerr", "clog", "printf", "scanf", "getline"]
  | "javascript" => ["log", "error", "warn", "info", "debug", "trace",
                     "alert", "prompt", "confirm",
                     "readFile", "writeFile", "readFileSync", "writeFileSync"]
  | _ => []

/-- `IO_CALL_SUBSTRINGS` by language key. -/
def IO_CALL_SUBSTRINGS : String → List String
  | "python" => pyIoCallSubstrings
  | "java" => ["System.out", "System.err", "System.in", "Scanner", "BufferedReader",
               "FileReader", "FileWriter", "PrintWriter"]
  | "c" => []
  | "cpp" => []
  | "javascript" => ["console.log", "console.error", "console.warn", "console.info",
                     "console.debug", "console.trace", "document.write", "fs.",
                     "process.stdout", "process.stderr", "process.stdin"]
  | _ => []

/-- `NETWORK_FUNCTIONS` by language key. -/
def NETWORK_FUNCTIONS : String → List String
  | "python" => pyNetworkFunctions
  | "java" => ["HttpURLConnection", "URL", "Socket", "ServerSocket",
               "HttpClient", "HttpRequest", "RestTemplate", "WebClient"]
  | "c" => ["socket", "connect", "send", "recv", "bind", "listen", "accept"]
  | "cpp" => ["socket", "connect", "send", "recv"]
  | "javascript" => ["fetch", "axios", "XMLHttpRequest", "WebSocket"]
  | _ => []

/-- `NETWORK_CALL_SUBSTRINGS` by language key. -/
def NETWORK_CALL_SUBSTRINGS : String → List String
  | "python" => pyNetworkCallSubstrings
  | "java" => []
  | "c" => []
  | "cpp" => ["boost::asio", "curl_", "httplib"]
  | "javascript" => ["http.request", "https.request", "net.connect"]
  | _ => []

/-- `ALLOC_FUNCTIONS` by language key. -/
def ALLOC_FUNCTIONS : String → List String
  | "python" => pyAllocFunctions
  | "java" => []
  | "c" => ["malloc", "calloc", "realloc", "free", "alloca"]
  | "cpp" => ["malloc", "calloc", "make_shared", "make_unique"]
  | "javascript" => []
  | _ => []

/-- The constructor of `CFamilyTreeSitterAnalyzer` resolves the language key:
`typescript` reuses the `javascript` tables. -/
def cfLangKey (language : String) : String :=
  if language = "typescript" then "javascript" else language

-- =============================================================================
-- languageDetection.ts — C-family syntax fragment
-- =============================================================================

/-- The callee of a `call_expression`/`method_invocation`: an identifier or
property identifier, a member-access chain, or some other expression. -/
inductive CfCallee where
  | fid (name : String)
  | fmember (obj : CfCallee) (prop : String)
  | fother
deriving DecidableEq

/-- The left-hand side of an `assignment_expression`. -/
inductive CfLhs where
  | clid (name : String)
  | clother
deriving DecidableEq

mutual

/-- Expression nodes of the analyzed C-family fragment, one constructor per
tree-sitter node kind handled by the C-family `analyzeExpression`. -/
inductive CfExpr where
  | binaryE (op : String) (left right : CfExpr)
  | unaryE (op : String) (arg : CfExpr)
  | updateE (op : String)
  | assignE (lhs : CfLhs) (rhs : CfExpr)
  | augAssignE (leftText : String) (op : String) (rhs : CfExpr)
  | callE (callee : CfCallee) (args : CfExprList)
  | subscriptE (children : CfExprList)
  | identE (name : String)
  | numberE (value : Int)
  | parenE (inner : CfExpr)

/-- A list of C-family expression nodes. -/
inductive CfExprList where
  | nil
  | cons (e : CfExpr) (rest : CfExprList)

/-- Statement nodes of the analyzed C-family fragment. -/
inductive CfStmt where
  | declS (decls : CfDecls)
  | exprS (exprs : CfExprList)
  | forS (init : CfOptStmt) (cond : CfOptExpr) (update : CfOptExpr) (body : CfBlock)
  | whileS (cond : CfOptExpr) (body : CfBlock)
  | returnS (exprs : CfExprList)
  | breakS
  | continueS
  | funcDefS (name : String) (params : CfExprList) (body : CfBlock)

/-- The declarators of a `declaration`/`lexical_declaration`: a declarator
name with an optional initial value. -/
inductive CfDecls where
  | nil
  | cons (name : String) (value : CfOptExpr) (rest : CfDecls)

/-- A body's named children. -/
inductive CfBlock where
  | nil
  | cons (s : CfStmt) (rest : CfBlock)

/-- An optional expression child. -/
inductive CfOptExpr where
  | none
  | some (e : CfExpr)

/-- An optional statement child (a for-loop initializer). -/
inductive CfOptStmt where
  | none
  | some (s : CfStmt)

end

/-- C-family `getCallName`. -/
def CfCallee.getCallName : CfCallee → Option String
  | .fid name => Option.some name
  | .fmember _ prop => Option.some prop
  | .fother => Option.none

/-- The parts collected by the C-family `getFullCallName` walk. -/
def CfCallee.parts : CfCallee → List String
  | .fid name => [name]
  | .fmember obj prop => obj.parts ++ [prop]
  | .fother => []

/-- C-family `getFullCallName`. -/
def CfCallee.getFullCallName (c : CfCallee) : Option String :=
  if c.parts.isEmpty then Option.none else Option.some (String.intercalate "." c.parts)

/-- The C-family `resolveConstantExpr`: number literals stand for their parsed
value (`parseNumericLiteral`), `/` is `Math.floor` of the quotient and `%` the
JS remainder (both unresolved on a zero divisor), and a unary `+`/`-` resolves
only over a number-literal operand. -/
def cfResolveConstantExpr (vm : VarMap) : CfExpr → Option Int
  | .numberE v => Option.some v
  | .identE n => List.lookup n vm
  | .parenE inner => cfResolveConstantExpr vm inner
  | .binaryE op l r =>
      match cfResolveConstantExpr vm l, cfResolveConstantExpr vm r with
      | Option.some lv, Option.some rv =>
          if op = "+" then Option.some (lv + rv)
          else if op = "-" then Option.some (lv - rv)
          else if op = "*" then Option.some (lv * rv)
          else if op = "/" then
            (if rv ≠ 0 then Option.some (Int.fdiv lv rv) else Option.none)
          else if op = "%" then
            (if rv ≠ 0 then Option.some (Int.tmod lv rv) else Option.none)
          else Option.none
      | _, _ => Option.none
  | .unaryE op arg =>
      match arg with
      | .numberE v =>
          if op = "-" then Option.some (-v)
          else if op = "+" then Option.some v
          else Option.none
      | _ => Option.none
  | _ => Option.none

/-- The C-family `call_expression`/`method_invocation` classification: I/O,
network, allocation, else one generic `function_call`. -/
def cfClassifyCall (language : String) (callee : CfCallee) (multiplier : Int) : OperationCount :=
  let key := cfLangKey language
  match callee.getCallName with
  | Option.some callName =>
      let fullMatch := fun (subs : List String) =>
        match callee.getFullCallName with
        | Option.some full => subs.any (fun sub => strContainsSub full sub)
        | Option.none => false
      if (IO_FUNCTIONS key).contains callName || fullMatch (IO_CALL_SUBSTRINGS key) then
        OperationCount.empty.add .io_operation multiplier
      else if (NETWORK_FUNCTIONS key).contains callName || fullMatch (NETWORK_CALL_SUBSTRINGS key) then
        OperationCount.empty.add .network_operation multiplier
      else if (ALLOC_FUNCTIONS key).contains callName then
        OperationCount.empty.add .memory_allocation multiplier
      else
        OperationCount.empty.add .function_call multiplier
  | Option.none => OperationCount.empty.add .function_call multiplier

/-- The first declarator of a declaration that carries a `value` field (the
`extractInitValue` walk returns on the first such declarator, whether or not
the value then resolves). -/
def cfFirstDeclValue : CfDecls → Option CfExpr
  | .nil => Option.none
  | .cons _ (.some v) _ => Option.some v
  | .cons _ .none rest => cfFirstDeclValue rest

/-- `extractInitValue` from the C-family analyzer: the resolved value of the
first declarator that has one (an assignment-expression initializer is not a
declaration and yields nothing here). -/
def cfExtractInitValue (vm : VarMap) (init : CfStmt) : Option Int :=
  match init with
  | .declS decls =>
      (match cfFirstDeclValue decls with
       | Option.some v => cfResolveConstantExpr vm v
       | Option.none => Option.none)
  | _ => Option.none

/-- `extractStep` from the C-family analyzer: an `update_expression` steps by
1, an augmented assignment by its resolved right-hand side (1 when it does not
resolve); otherwise the direct children are scanned the same way; default 1. -/
def cfExtractStep (vm : VarMap) (update : CfOptExpr) : Int :=
  match update with
  | .none => 1
  | .some u =>
      match u with
      | .updateE _ => 1
      | .augAssignE _ _ rhs => (cfResolveConstantExpr vm rhs).getD 1
      | .parenE inner =>
          (match inner with
           | .updateE _ => 1
           | .augAssignE _ _ rhs => (cfResolveConstantExpr vm rhs).getD 1
           | _ => 1)
      | _ => 1

/-- `estimateForIterations` from the C-family analyzer: resolve the end bound
from the right-hand side of the condition, the start from the initializer
(default 0) and the step from the update (default 1); ceiling division per
comparison operator; the reversed `const < i` pattern when the right-hand
side is an identifier with a known constant; otherwise the default. -/
def cfEstimateForIterations (vm : VarMap) (init : CfOptStmt) (cond : CfOptExpr)
    (update : CfOptExpr) : Int :=
  match cond with
  | .some (CfExpr.binaryE op left right) =>
      let startVal :=
        match init with
        | .some i => (cfExtractInitValue vm i).getD 0
        | .none => 0
      let reversedCheck :=
        match cfResolveConstantExpr vm left, right with
        | Option.some leftVal, CfExpr.identE rightName =>
            (match List.lookup rightName vm with
             | Option.some rightVar =>
                 if op = "<" then max 0 (rightVar - leftVal)
                 else if op = "<=" then max 0 (rightVar - leftVal + 1)
                 else DEFAULT_LOOP_ITERATIONS
             | Option.none => DEFAULT_LOOP_ITERATIONS)
        | _, _ => DEFAULT_LOOP_ITERATIONS
      (match cfResolveConstantExpr vm right with
       | Option.some endVal =>
           let stepVal := cfExtractStep vm update
           if op = "<" then max 0 (jsCeilDiv (endVal - startVal) stepVal)
           else if op = "<=" then max 0 (jsCeilDiv (endVal - startVal + 1) stepVal)
           else if op = ">" then max 0 (jsCeilDiv (startVal - endVal) stepVal)
           else if op = ">=" then max 0 (jsCeilDiv (startVal - endVal + 1) stepVal)
           else reversedCheck
       | Option.none => reversedCheck)
  | _ => DEFAULT_LOOP_ITERATIONS

/-- `estimateWhileIterations` from the C-family analyzer.  A parenthesized
condition is unwrapped; the condition must be a binary expression whose left
operand is an identifier and whose right side resolves.  (The source's
trailing binary-search arm is unreachable: every `<=` path above it already
returned.) -/
def cfEstimateWhileIterations (vm : VarMap) (cond : CfOptExpr) : Int :=
  match cond with
  | .none => DEFAULT_LOOP_ITERATIONS
  | .some c0 =>
      let c := match c0 with
        | .parenE inner => inner
        | _ => c0
      match c with
      | .binaryE op (CfExpr.identE varName) right =>
          (match cfResolveConstantExpr vm right with
           | Option.some rightVal =>
               if op = "<" ∨ op = "<=" then
                 (match List.lookup varName vm with
                  | Option.some startVal => max 1 |rightVal - startVal|
                  | Option.none =>
                      if 0 < rightVal then rightVal else DEFAULT_LOOP_ITERATIONS)
               else if op = ">" ∨ op = ">=" then
                 (match List.lookup varName vm with
                  | Option.some startVal => max 1 (startVal - rightVal)
                  | Option.none => DEFAULT_LOOP_ITERATIONS)
               else DEFAULT_LOOP_ITERATIONS
           | Option.none => DEFAULT_LOOP_ITERATIONS)
      | _ => DEFAULT_LOOP_ITERATIONS

mutual

/-- The C-family `analyzeExpression`. -/
def cfAnalyzeExpr (language : String) (e : CfExpr) (multiplier : Int) : OperationCount :=
  match e with
  | .binaryE op l r =>
      let base :=
        if op = "+" then OperationCount.empty.add .addition multiplier
        else if op = "-" then OperationCount.empty.add .subtraction multiplier
        else if op = "*" then OperationCount.empty.add .multiplication multiplier
        else if op = "/" ∨ op = "%" then OperationCount.empty.add .division multiplier
        else if ["<", ">", "<=", ">=", "==", "!=", "===", "!==", "instanceof"].contains op then
          OperationCount.empty.add .comparison multiplier
        else if ["&&", "||", "and", "or"].contains op then
          OperationCount.empty.add .comparison multiplier
        else OperationCount.empty.add .addition multiplier
      (base.merge (cfAnalyzeExpr language l multiplier)).merge (cfAnalyzeExpr language r multiplier)
  | .unaryE _ arg =>
      (OperationCount.empty.add .addition multiplier).merge (cfAnalyzeExpr language arg multiplier)
  | .updateE op =>
      let arith :=
        if op = "++" then OperationCount.empty.add .addition multiplier
        else if op = "--" then OperationCount.empty.add .subtraction multiplier
        else OperationCount.empty
      arith.add .assignment multiplier
  | .assignE _ rhs =>
      (OperationCount.empty.add .assignment multiplier).merge (cfAnalyzeExpr language rhs multiplier)
  | .augAssignE _ op rhs =>
      let base := OperationCount.empty.add .assignment multiplier
      let withArith :=
        if op = "+=" then base.add .addition multiplier
        else if op = "-=" then base.add .subtraction multiplier
        else if op = "*=" then base.add .multiplication multiplier
        else if op = "/=" ∨ op = "%=" then base.add .division multiplier
        else base
      withArith.merge (cfAnalyzeExpr language rhs multiplier)
  | .callE callee args =>
      (cfClassifyCall language callee multiplier).merge (cfAnalyzeExprList language args multiplier)
  | .subscriptE children =>
      (OperationCount.empty.add .array_access multiplier).merge
        (cfAnalyzeExprList language children multiplier)
  | .identE _ => OperationCount.empty
  | .numberE _ => OperationCount.empty
  | .parenE inner => cfAnalyzeExpr language inner multiplier

/-- Fold the C-family `analyzeExpression` over named children. -/
def cfAnalyzeExprList (language : String) (es : CfExprList) (multiplier : Int) : OperationCount :=
  match es with
  | .nil => OperationCount.empty
  | .cons e rest =>
      (cfAnalyzeExpr language e multiplier).merge (cfAnalyzeExprList language rest multiplier)

/-- The C-family `analyzeNode`. -/
def cfAnalyzeNode (language : String) (vm : VarMap) (s : CfStmt) (loopMultiplier : Int) :
    OperationCount :=
  match s with
  | .declS decls => cfAnalyzeDecls language decls loopMultiplier
  | .exprS exprs => cfAnalyzeExprList language exprs loopMultiplier
  | .forS init cond update body =>
      let iterations := cfEstimateForIterations vm init cond update
      let innerMultiplier := loopMultiplier * iterations
      let headerOps := OperationCount.empty.add .comparison (loopMultiplier * iterations)
      let initOps :=
        match init with
        | .some i => cfAnalyzeNode language vm i loopMultiplier
        | .none => OperationCount.empty
      let condOps :=
        match cond with
        | .some c => cfAnalyzeExpr language c loopMultiplier
        | .none => OperationCount.empty
      let updateOps :=
        match update with
        | .some u => cfAnalyzeExpr language u (loopMultiplier * iterations)
        | .none => OperationCount.empty
      (((headerOps.merge initOps).merge condOps).merge updateOps).merge
        (cfAnalyzeBlock language vm body innerMultiplier)
  | .whileS cond body =>
      let iterations := cfEstimateWhileIterations vm cond
      let innerMultiplier := loopMultiplier * iterations
      let headerOps := OperationCount.empty.add .comparison (loopMultiplier * iterations)
      let condOps :=
        match cond with
        | .some c => cfAnalyzeExpr language c loopMultiplier
        | .none => OperationCount.empty
      (headerOps.merge condOps).merge (cfAnalyzeBlock language vm body innerMultiplier)
  | .returnS exprs => cfAnalyzeExprList language exprs loopMultiplier
  | .breakS => OperationCount.empty
  | .continueS => OperationCount.empty
  | .funcDefS _ _ _ => OperationCount.empty

/-- The declarator loop of the C-family `declaration` arm: one `assignment`
per declarator plus its initializer's operations. -/
def cfAnalyzeDecls (language : String) (decls : CfDecls) (multiplier : Int) : OperationCount :=
  match decls with
  | .nil => OperationCount.empty
  | .cons _ value rest =>
      let valueOps :=
        match value with
        | .some v => cfAnalyzeExpr language v multiplier
        | .none => OperationCount.empty
      ((OperationCount.empty.add .assignment multiplier).merge valueOps).merge
        (cfAnalyzeDecls language rest multiplier)

/-- Fold the C-family `analyzeNode` over a body's named children. -/
def cfAnalyzeBlock (language : String) (vm : VarMap) (b : CfBlock) (loopMultiplier : Int) :
    OperationCount :=
  match b with
  | .nil => OperationCount.empty
  | .cons s rest =>
      (cfAnalyzeNode language vm s loopMultiplier).merge
        (cfAnalyzeBlock language vm rest loopMultiplier)

end

mutual

/-- `containsCallTo` over a C-family expression. -/
def cfExprHasCall (funcName : String) (e : CfExpr) : Bool :=
  match e with
  | .binaryE _ l r => cfExprHasCall funcName l || cfExprHasCall funcName r
  | .unaryE _ arg => cfExprHasCall funcName arg
  | .updateE _ => false
  | .assignE _ rhs => cfExprHasCall funcName rhs
  | .augAssignE _ _ rhs => cfExprHasCall funcName rhs
  | .callE callee args =>
      callee.getCallName == Option.some funcName || cfExprListHasCall funcName args
  | .subscriptE children => cfExprListHasCall funcName children
  | .identE _ => false
  | .numberE _ => false
  | .parenE inner => cfExprHasCall funcName inner

/-- `containsCallTo` over an expression list. -/
def cfExprListHasCall (funcName : String) (es : CfExprList) : Bool :=
  match es with
  | .nil => false
  | .cons e rest => cfExprHasCall funcName e || cfExprListHasCall funcName rest

/-- `containsCallTo` over a statement. -/
def cfStmtHasCall (funcName : String) (s : CfStmt) : Bool :=
  match s with
  | .declS decls => cfDeclsHasCall funcName decls
  | .exprS exprs => cfExprListHasCall funcName exprs
  | .forS init cond update body =>
      (match init with
       | .some i => cfStmtHasCall funcName i
       | .none => false)
      || (match cond with
          | .some c => cfExprHasCall funcName c
          | .none => false)
      || (match update with
          | .some u => cfExprHasCall funcName u
          | .none => false)
      || cfBlockHasCall funcName body
  | .whileS cond body =>
      (match cond with
       | .some c => cfExprHasCall funcName c
       | .none => false)
      || cfBlockHasCall funcName body
  | .returnS exprs => cfExprListHasCall funcName exprs
  | .breakS => false
  | .continueS => false
  | .funcDefS _ params body =>
      cfExprListHasCall funcName params || cfBlockHasCall funcName body

/-- `containsCallTo` over declarators. -/
def cfDeclsHasCall (funcName : String) (decls : CfDecls) : Bool :=
  match decls with
  | .nil => false
  | .cons _ (.some v) rest => cfExprHasCall funcName v || cfDeclsHasCall funcName rest
  | .cons _ .none rest => cfDeclsHasCall funcName rest

/-- `containsCallTo` over a block. -/
def cfBlockHasCall (funcName : String) (b : CfBlock) : Bool :=
  match b with
  | .nil => false
  | .cons s rest => cfStmtHasCall funcName s || cfBlockHasCall funcName rest

end

mutual

/-- The C-family `extractConstants` over an expression: an
`assignment_expression` to a bare identifier whose right side resolves records
the binding, then the walk descends into the right-hand side. -/
def cfExtractExpr (vm : VarMap) (e : CfExpr) : VarMap :=
  match e with
  | .assignE (.clid name) rhs =>
      let vm1 :=
        match cfResolveConstantExpr vm rhs with
        | Option.some v => (name, v) :: vm
        | Option.none => vm
      cfExtractExpr vm1 rhs
  | .assignE .clother rhs => cfExtractExpr vm rhs
  | .augAssignE _ _ rhs => cfExtractExpr vm rhs
  | .binaryE _ l r => cfExtractExpr (cfExtractExpr vm l) r
  | .unaryE _ arg => cfExtractExpr vm arg
  | .callE _ args => cfExtractExprList vm args
  | .subscriptE children => cfExtractExprList vm children
  | .parenE inner => cfExtractExpr vm inner
  | .updateE _ => vm
  | .identE _ => vm
  | .numberE _ => vm

/-- The C-family `extractConstants` over an expression list. -/
def cfExtractExprList (vm : VarMap) (es : CfExprList) : VarMap :=
  match es with
  | .nil => vm
  | .cons e rest => cfExtractExprList (cfExtractExpr vm e) rest

/-- The C-family `extractConstants` over a statement: a declaration records
every declarator with a resolvable initializer (`extractFromDeclaration`),
then the walk descends into the children in order. -/
def cfExtractStmt (vm : VarMap) (s : CfStmt) : VarMap :=
  match s with
  | .declS decls => cfExtractDecls vm decls
  | .exprS exprs => cfExtractExprList vm exprs
  | .forS init cond update body =>
      let vm1 :=
        match init with
        | .some i => cfExtractStmt vm i
        | .none => vm
      let vm2 :=
        match cond with
        | .some c => cfExtractExpr vm1 c
        | .none => vm1
      let vm3 :=
        match update with
        | .some u => cfExtractExpr vm2 u
        | .none => vm2
      cfExtractBlock vm3 body
  | .whileS cond body =>
      let vm1 :=
        match cond with
        | .some c => cfExtractExpr vm c
        | .none => vm
      cfExtractBlock vm1 body
  | .returnS exprs => cfExtractExprList vm exprs
  | .breakS => vm
  | .continueS => vm
  | .funcDefS _ _ body => cfExtractBlock vm body

/-- `extractFromDeclaration`: record each declarator whose initializer
resolves, in declarator order, then descend into the initializers. -/
def cfExtractDecls (vm : VarMap) (decls : CfDecls) : VarMap :=
  match decls with
  | .nil => vm
  | .cons name (.some v) rest =>
      let vm1 :=
        match cfResolveConstantExpr vm v with
        | Option.some value => (name, value) :: vm
        | Option.none => vm
      cfExtractDecls (cfExtractExpr vm1 v) rest
  | .cons _ .none rest => cfExtractDecls vm rest

/-- The C-family `extractConstants` over a block. -/
def cfExtractBlock (vm : VarMap) (b : CfBlock) : VarMap :=
  match b with
  | .nil => vm
  | .cons s rest => cfExtractBlock (cfExtractStmt vm s) rest

end

/-- The C-family `analyzeFunction`: snapshot and extend the constant table,
detect recursion by `containsCallTo` over the whole definition, walk every
body statement at multiplier 1, scale by `DEFAULT_RECURSION_DEPTH` when
recursive. -/
def cfAnalyzeFunction (language : String) (vm : VarMap) (className : Option String)
    (name : String) (params : CfExprList) (body : CfBlock) : FunctionAnalysis :=
  let qualifiedName :=
    match className with
    | Option.some c => c ++ "." ++ name
    | Option.none => name
  let extended := cfExtractBlock (cfExtractExprList vm params) body
  let isRec := cfExprListHasCall name params || cfBlockHasCall name body
  let bodyOps := cfAnalyzeBlock language extended body 1
  let operations := if isRec then bodyOps.scale DEFAULT_RECURSION_DEPTH else bodyOps
  { name := qualifiedName, operations := operations, isRecursive := isRec }

-- =============================================================================
-- languageDetection.ts — detectLanguage
-- =============================================================================

/-- The `SupportedLanguage` union type: `detectLanguage` always returns one of
these six tags. -/
inductive SupportedLanguage where
  | python
  | java
  | c
  | cpp
  | javascript
  | typescript
deriving DecidableEq

/-- The tag's string value. -/
def SupportedLanguage.toStr : SupportedLanguage → String
  | .python => "python"
  | .java => "java"
  | .c => "c"
  | .cpp => "cpp"
  | .javascript => "javascript"
  | .typescript => "typescript"

/-- `EXT_MAP` from languageDetection.ts. -/
def EXT_MAP : List (String × SupportedLanguage) :=
  [(".py", .python), (".java", .java), (".c", .c), (".cpp", .cpp), (".cc", .cpp),
   (".cxx", .cpp), (".hpp", .cpp), (".h", .c), (".js", .javascript),
   (".mjs", .javascript), (".jsx", .javascript), (".ts", .typescript),
   (".tsx", .typescript)]

/-- A JS `\w` word character (ASCII letters, digits, underscore). -/
def isWordChar (ch : Char) : Bool := ch.isAlphanum || ch = '_'

/-- A JS `\s` whitespace character (ASCII range). -/
def isWsChar (ch : Char) : Bool :=
  ch = ' ' || ch = '\t' || ch = '\n' || ch = '\r' || ch = '\x0b' || ch = '\x0c'

/-- Consume an exact literal. -/
def eatLit : List Char → List Char → Option (List Char)
  | [], s => Option.some s
  | c :: cs, d :: ds => if d = c then eatLit cs ds else Option.none
  | _ :: _, [] => Option.none

/-- Consume `\s+` (greedy; every pattern below follows it with a non-space). -/
def eatWs1 : List Char → Option (List Char)
  | c :: cs => if isWsChar c then Option.some (cs.dropWhile isWsChar) else Option.none
  | [] => Option.none

/-- Consume `\s*` (greedy). -/
def eatWs0 (s : List Char) : Option (List Char) :=
  Option.some (s.dropWhile isWsChar)

/-- Consume `\w+` (greedy; every pattern below follows it with a non-word). -/
def eatWord1 : List Char → Option (List Char)
  | c :: cs => if isWordChar c then Option.some (cs.dropWhile isWordChar) else Option.none
  | [] => Option.none

/-- A `\b` immediately after a just-consumed word: the next character is not a
word character (or the input ends). -/
def boundaryAfter : List Char → Bool
  | [] => true
  | c :: _ => !isWordChar c

/-- Try a position test at every suffix, tracking whether a `\b` holds there
(start of input, or the previous character is not a word character). -/
def scanSuffix (test : Bool → List Char → Bool) : Bool → List Char → Bool
  | bOk, s =>
      if test bOk s then true
      else
        match s with
        | [] => false
        | c :: cs => scanSuffix test (!isWordChar c) cs

/-- Run a scan over a string starting with a boundary. -/
def scanStr (test : Bool → List Char → Bool) (s : String) : Bool :=
  scanSuffix test true s.toList

/-- The test `/\bdef\s+\w+\s*\(/`. -/
def hasDefHeader (code : String) : Bool :=
  scanStr (fun bOk s =>
    bOk && ((((eatLit "def".toList s).bind eatWs1).bind eatWord1).bind
      (fun s4 => (eatWs0 s4).bind (eatLit ['(']))).isSome) code

/-- The test `/:\s*$/m`: a colon followed by whitespace reaching the end of a
line (`$` matches at end of input or before a newline; `\s` itself may consume
newlines, so the run after the colon must either reach the end or contain a
newline). -/
def hasColonEol (code : String) : Bool :=
  scanStr (fun _ s =>
    match s with
    | ':' :: t => (t.takeWhile isWsChar).contains '\n' || (t.dropWhile isWsChar).isEmpty
    | _ => false) code

/-- The test `/\bpublic\s+(static\s+)?class\b/` (with the optional group's
backtracking). -/
def hasPublicClass (code : String) : Bool :=
  let classAt := fun (s : List Char) =>
    match eatLit "class".toList s with
    | Option.some rest => boundaryAfter rest
    | Option.none => false
  scanStr (fun bOk s =>
    bOk &&
      match (eatLit "public".toList s).bind eatWs1 with
      | Option.some s2 =>
          (match (eatLit "static".toList s2).bind eatWs1 with
           | Option.some s4 => classAt s4 || classAt s2
           | Option.none => classAt s2)
      | Option.none => false) code

/-- The test `/#include\s*</` (no word boundaries). -/
def hasIncludeAngle (code : String) : Bool :=
  scanStr (fun _ s =>
    (((eatLit "#include".toList s).bind eatWs0).bind (eatLit ['<'])).isSome) code

/-- The test `\bWORD\b` for a literal word. -/
def hasBareWord (word : String) (code : String) : Bool :=
  scanStr (fun bOk s =>
    bOk &&
      match eatLit word.toList s with
      | Option.some rest => boundaryAfter rest
      | Option.none => false) code

/-- The test `/\bstd::/`. -/
def hasStdColon (code : String) : Bool :=
  scanStr (fun bOk s => bOk && (eatLit "std::".toList s).isSome) code

/-- The test `/\b(interface|type)\s+\w+/`. -/
def hasInterfaceOrType (code : String) : Bool :=
  scanStr (fun bOk s =>
    bOk &&
      ((((eatLit "interface".toList s).bind eatWs1).bind eatWord1).isSome
        || (((eatLit "type".toList s).bind eatWs1).bind eatWord1).isSome)) code

/-- The test `/:\s*\w+/`. -/
def hasColonType (code : String) : Bool :=
  scanStr (fun _ s =>
    match s with
    | ':' :: t => ((eatWs0 t).bind eatWord1).isSome
    | _ => false) code

/-- Substring containment over char lists. -/
def charsContainSub (hay needle : List Char) : Bool :=
  hay.tails.any (fun t => needle.isPrefixOf t)

/-- The test `/\bconst\b.*=>/` (the dot does not match newlines, so `=>`
must follow `const` on the same line). -/
def hasConstArrow (code : String) : Bool :=
  scanStr (fun bOk s =>
    bOk &&
      match eatLit "const".toList s with
      | Option.some rest =>
          boundaryAfter rest && charsContainSub (rest.takeWhile (fun ch => ch ≠ '\n')) "=>".toList
      | Option.none => false) code

/-- The test `/\bconsole\.log\b/`. -/
def hasConsoleLog (code : String) : Bool :=
  scanStr (fun bOk s =>
    bOk &&
      match eatLit "console.log".toList s with
      | Option.some rest => boundaryAfter rest
      | Option.none => false) code

/-- The content heuristics of `detectLanguage`, checked in source order;
default `python`. -/
def detectFromContent (code : String) : SupportedLanguage :=
  if hasDefHeader code && hasColonEol code then .python
  else if hasPublicClass code then .java
  else if hasIncludeAngle code && hasBareWord "printf" code then .c
  else if hasIncludeAngle code && (hasBareWord "cout" code || hasStdColon code) then .cpp
  else if hasInterfaceOrType code && hasColonType code then .typescript
  else if hasBareWord "function" code || hasConstArrow code || hasConsoleLog code then .javascript
  else .python

/-- `path.extname`: the substring of the basename from its last dot (empty
when the basename has no dot or only a leading dot). -/
def extname (p : String) : String :=
  let base := ((p.toList.reverse.takeWhile (fun ch => ch ≠ '/'))).reverse
  let revBase := base.reverse
  let afterDot := revBase.takeWhile (fun ch => ch ≠ '.')
  if afterDot.length = revBase.length then ""
  else if base.length = afterDot.length + 1 then ""
  else String.mk ('.' :: afterDot.reverse)

/-- `detectLanguage` from languageDetection.ts.  `if (filePath)` and
`if (code)` are JS truthiness tests: the empty string is falsy. -/
def detectLanguage (filePath : Option String) (code : Option String) : SupportedLanguage :=
  let fromCode : SupportedLanguage :=
    match code with
    | Option.some cd => if cd.isEmpty then .python else detectFromContent cd
    | Option.none => .python
  match filePath with
  | Option.some fp =>
      if fp.isEmpty then fromCode
      else
        match List.lookup (extname fp).toLower EXT_MAP with
        | Option.some l => l
        | Option.none => fromCode
  | Option.none => fromCode

-- =============================================================================
-- index.ts — synchronous public API
-- =============================================================================

/-- The message the orchestrator would record if the detector returned no
language. -/
def undetectedMessage : String :=
  "Language could not be detected — no analysis performed"

/-- Split a source text into its lines (structural equivalent of
`code.split('\n')`). -/
def splitLines (s : String) : List String :=
  (s.toList.foldr
    (fun ch (acc : List (List Char)) =>
      if ch = '\n' then [] :: acc
      else
        match acc with
        | [] => [[ch]]
        | l :: ls => (ch :: l) :: ls)
    [[]]).map (fun l => String.mk l)

-- =============================================================================
-- regexAnalyzer.js — the textual fallback analyzer.  The compiled
-- implementation is concatenated as the third document of
-- src/out/carbonFootprint/treeSitterManager.d.ts (trailer
-- `//# sourceMappingURL=regexAnalyzer.js.map`); every definition below embeds
-- that file.  JS strings are ASCII here, so `\s`, `\w`, `trim` and friends are
-- read over their ASCII ranges.
-- =============================================================================

/-- JS `String.prototype.trimStart` (over the ASCII whitespace class). -/
def jsTrimStart (s : String) : String := String.mk (s.toList.dropWhile isWsChar)

/-- JS `String.prototype.trimEnd`. -/
def jsTrimEnd (s : String) : String :=
  String.mk ((s.toList.reverse.dropWhile isWsChar).reverse)

/-- JS `String.prototype.trim`. -/
def jsTrim (s : String) : String := jsTrimEnd (jsTrimStart s)

/-- JS `String.prototype.startsWith` (structural, so it reduces in the
kernel). -/
def jsStartsWith (s pre : String) : Bool := pre.toList.isPrefixOf s.toList

/-- `parseInt(text, 10)` on a digits-only match (every `parseInt` call in
regexAnalyzer.js receives a `\d+` capture). -/
def parseDigits (s : String) : Int :=
  ((s.toList.foldl (fun acc c => acc * 10 + (c.toNat - '0'.toNat)) 0 : Nat) : Int)

/-- The `/^\d+$/.test` guard in front of those `parseInt` calls. -/
def isAllDigits (s : String) : Bool := !s.isEmpty && s.toList.all Char.isDigit

/-- The open-brace character (written by code so no string carries it). -/
def braceOpenCh : Char := '\x7b'

/-- The close-brace character. -/
def braceCloseCh : Char := '\x7d'

/-- A single-quote character, for building the recursion assumption text. -/
def squote : String := String.mk ['\x27']

/-- Helper for `indexOf`: scan for `needle` through successive suffixes,
reporting the absolute position carried in the counter. -/
def idxOfFromAux (needle : List Char) : List Char → Nat → Option Nat
  | [], _ => Option.none
  | c :: rest, i =>
      if needle.isPrefixOf (c :: rest) then Option.some i
      else idxOfFromAux needle rest (i + 1)

/-- JS `String.prototype.indexOf(needle, start)` over char lists (`none` for
`-1`; every needle in regexAnalyzer.js is non-empty). -/
def idxOfFrom (hay needle : List Char) (start : Nat) : Option Nat :=
  idxOfFromAux needle (hay.drop start) start

/-- `String.prototype.split(',')`, mirroring `splitLines`. -/
def splitOnComma (s : String) : List String :=
  (s.toList.foldr
    (fun ch (acc : List (List Char)) =>
      if ch = ',' then [] :: acc
      else
        match acc with
        | [] => [[ch]]
        | l :: ls => (ch :: l) :: ls)
    [[]]).map (fun l => String.mk l)

/-- A regular-expression AST covering every literal pattern in
regexAnalyzer.js: character classes, concatenation, alternation, greedy and
lazy repetition, numbered capture groups, both anchors in their single-line
(`bos`/`eos`) and multiline (`bolM`/`eolM`, the `m` flag) readings, the word
boundary `\b`, and the single-character lookbehind `(?<!c)` / negative
lookahead `(?!c)` classes the file uses. -/
inductive Regex where
  | eps : Regex
  | chr (p : Char → Bool) : Regex
  | seq (a b : Regex) : Regex
  | alt (a b : Regex) : Regex
  | rep (greedy : Bool) (r : Regex) : Regex
  | grp (idx : Nat) (r : Regex) : Regex
  | bos : Regex
  | bolM : Regex
  | eos : Regex
  | eolM : Regex
  | wordB : Regex
  | prevNot (p : Char → Bool) : Regex
  | nextNot (p : Char → Bool) : Regex

/-- Structural size of a pattern, used to bound matcher recursion. -/
def Regex.size : Regex → Nat
  | .eps => 1
  | .chr _ => 1
  | .seq a b => a.size + b.size + 1
  | .alt a b => a.size + b.size + 1
  | .rep _ r => r.size + 1
  | .grp _ r => r.size + 1
  | .bos => 1
  | .bolM => 1
  | .eos => 1
  | .eolM => 1
  | .wordB => 1
  | .prevNot _ => 1
  | .nextNot _ => 1

/-- A matcher state: the previously consumed character (context for `^m`,
`\b` and lookbehind), the remaining input, and the captures recorded so far
(newest first, as JS keeps a group's latest capture). -/
abbrev MState := Option Char × List Char × List (Nat × String)

/-- The backtracking matcher.  `mrun fuel r prev s caps` lists every way `r`
can match a prefix of `s`, in JS backtracking priority order: alternation is
left-first, greedy repetition prefers one more iteration, lazy repetition
prefers stopping, and a repetition iteration must consume input (ECMA-262's
empty-iteration break).  The fuel argument makes the recursion structural:
each call either descends to a strict subpattern or restarts a repetition
after consuming at least one character, so the depth is at most
`(|s| + 1) * (size r + 1)` — the fuel callers pass — and the `0` case is never
reached. -/
def mrun : Nat → Regex → Option Char → List Char → List (Nat × String) → List MState
  | 0, _, _, _, _ => []
  | fuel + 1, r, prev, s, caps =>
      match r with
      | .eps => [(prev, s, caps)]
      | .chr p =>
          match s with
          | [] => []
          | c :: rest => if p c then [(Option.some c, rest, caps)] else []
      | .seq a b =>
          (mrun fuel a prev s caps).flatMap (fun st => mrun fuel b st.1 st.2.1 st.2.2)
      | .alt a b => mrun fuel a prev s caps ++ mrun fuel b prev s caps
      | .rep greedy rr =>
          let stop : List MState := [(prev, s, caps)]
          let go :=
            (mrun fuel rr prev s caps).flatMap (fun st =>
              if st.2.1.length < s.length then mrun fuel (.rep greedy rr) st.1 st.2.1 st.2.2
              else [])
          if greedy then go ++ stop else stop ++ go
      | .grp i rr =>
          (mrun fuel rr prev s caps).map (fun st =>
            (st.1, st.2.1, (i, String.mk (s.take (s.length - st.2.1.length))) :: st.2.2))
      | .bos => if prev.isNone then [(prev, s, caps)] else []
      | .bolM =>
          if prev.isNone || prev = Option.some '\n' then [(prev, s, caps)] else []
      | .eos => if s.isEmpty then [(prev, s, caps)] else []
      | .eolM =>
          match s with
          | [] => [(prev, s, caps)]
          | c :: _ => if c = '\n' then [(prev, s, caps)] else []
      | .wordB =>
          let pw := match prev with | Option.some c => isWordChar c | Option.none => false
          let nw := match s with | c :: _ => isWordChar c | [] => false
          if pw != nw then [(prev, s, caps)] else []
      | .prevNot p =>
          match prev with
          | Option.some c => if p c then [] else [(prev, s, caps)]
          | Option.none => [(prev, s, caps)]
      | .nextNot p =>
          match s with
          | c :: _ => if p c then [] else [(prev, s, caps)]
          | [] => [(prev, s, caps)]

/-- Fuel sufficient for `mrun` (see its doc comment). -/
def mfuel (r : Regex) (s : List Char) : Nat := (s.length + 1) * (r.size + 1)

/-- Leftmost match (`RegExp.prototype.exec` without `g`): try the matcher at
each start position in turn, returning the absolute index, matched text and
captures of the first success. -/
def firstMatchFrom (r : Regex) :
    Option Char → List Char → Nat → Option (Nat × String × List (Nat × String))
  | prev, s, idx =>
      match mrun (mfuel r s) r prev s [] with
      | st :: _ =>
          Option.some (idx, String.mk (s.take (s.length - st.2.1.length)), st.2.2)
      | [] =>
          match s with
          | [] => Option.none
          | c :: rest => firstMatchFrom r (Option.some c) rest (idx + 1)

/-- `re.exec(text)` from the start of the string. -/
def regexFind (r : Regex) (s : String) : Option (Nat × String × List (Nat × String)) :=
  firstMatchFrom r Option.none s.toList 0

/-- `re.test(text)`. -/
def regexTest (r : Regex) (s : String) : Bool := (regexFind r s).isSome

/-- `match[i]` of an exec result (`none` when group `i` did not
participate). -/
def capGet (caps : List (Nat × String)) (i : Nat) : Option String :=
  match caps.find? (fun q => q.1 == i) with
  | Option.some q => Option.some q.2
  | Option.none => Option.none

/-- The JS idiom `m[1] || m[2] || … || dflt`: the first listed group that
captured a non-empty string (`undefined` and `''` are both falsy). -/
def capFirst (caps : List (Nat × String)) : List Nat → String → String
  | [], dflt => dflt
  | i :: rest, dflt =>
      match capGet caps i with
      | Option.some v => if v.isEmpty then capFirst caps rest dflt else v
      | Option.none => capFirst caps rest dflt

/-- All matches of a `g` regex in order (`exec` in a loop): `lastIndex`
resumes right after each match and advances one character past an empty
match.  Each emitted match consumes at least one fuel unit and the match count
is bounded by `|s| + 1`, the fuel the caller passes. -/
def allMatchesFrom (r : Regex) :
    Nat → Option Char → List Char → Nat → List (Nat × String × List (Nat × String))
  | 0, _, _, _ => []
  | fuel + 1, prev, s, idx =>
      match firstMatchFrom r prev s idx with
      | Option.none => []
      | Option.some (i, text, caps) =>
          if text.isEmpty then
            match s.drop (i - idx) with
            | [] => [(i, text, caps)]
            | c :: rest =>
                (i, text, caps) :: allMatchesFrom r fuel (Option.some c) rest (i + 1)
          else
            let consumed := (i - idx) + text.length
            (i, text, caps) ::
              allMatchesFrom r fuel ((s.take consumed).getLast?) (s.drop consumed)
                (i + text.length)

/-- All matches of a global regex over a string. -/
def regexAllMatches (r : Regex) (s : String) : List (Nat × String × List (Nat × String)) :=
  allMatchesFrom r (s.toList.length + 1) Option.none s.toList 0

/-- `String.prototype.replace(re, '')` with `g`: drop every matched span. -/
def regexRemoveAll (r : Regex) (s : String) : String :=
  let ms := regexAllMatches r s
  let chars := s.toList
  String.mk ((List.range chars.length).filterMap (fun i =>
    if ms.any (fun m => decide (m.1 ≤ i) && decide (i < m.1 + m.2.1.length)) then
      Option.none
    else chars[i]?))

/-- A pattern that never matches (empty alternation). -/
def rfail : Regex := Regex.chr (fun _ => false)

/-- A literal string as a pattern. -/
def rlit (t : String) : Regex :=
  t.toList.foldr (fun c acc => Regex.seq (Regex.chr (fun d => d = c)) acc) Regex.eps

/-- Concatenation of a pattern list. -/
def rcat (rs : List Regex) : Regex := rs.foldr Regex.seq Regex.eps

/-- Left-to-right alternation of a pattern list. -/
def raltL (rs : List Regex) : Regex :=
  match rs with
  | [] => rfail
  | r :: rest => rest.foldl Regex.alt r

/-- `(w1|w2|…)` over literal words, in source order. -/
def rwordsAlt (ws : List String) : Regex := raltL (ws.map rlit)

/-- `r?` (greedy option). -/
def ropt (r : Regex) : Regex := Regex.alt r Regex.eps

/-- `r*` (greedy). -/
def rstar (r : Regex) : Regex := Regex.rep true r

/-- `r+` (greedy). -/
def rplus (r : Regex) : Regex := Regex.seq r (Regex.rep true r)

/-- `\s*`. -/
def rws0 : Regex := Regex.rep true (Regex.chr isWsChar)

/-- `\s+`. -/
def rws1 : Regex := Regex.seq (Regex.chr isWsChar) (Regex.rep true (Regex.chr isWsChar))

/-- `\w+`. -/
def rword1 : Regex := Regex.seq (Regex.chr isWordChar) (Regex.rep true (Regex.chr isWordChar))

/-- `\d+`. -/
def rdigit1 : Regex := Regex.seq (Regex.chr Char.isDigit) (Regex.rep true (Regex.chr Char.isDigit))

/-- `.` (anything but a newline; no `s` flag appears in the file). -/
def rdot : Regex := Regex.chr (fun c => c ≠ '\n')

/-- `[A-Z]`. -/
def isUpperAZ (c : Char) : Bool := decide ('A' ≤ c) && decide (c ≤ 'Z')

/-- `[A-Z_]`. -/
def isConstHead (c : Char) : Bool := isUpperAZ c || c = '_'

/-- `[A-Z0-9_]`. -/
def isConstTail (c : Char) : Bool := isUpperAZ c || Char.isDigit c || c = '_'

/-- `IO_PATTERNS.python = /\b(print|input|open|read|write|readline|readlines)\b/`. -/
def ioPatternPy : Regex :=
  rcat [Regex.wordB,
        Regex.grp 1 (rwordsAlt
          ["print", "input", "open", "read", "write", "readline", "readlines"]),
        Regex.wordB]

/-- `IO_PATTERNS.java = /\b(System\.(out|err|in)\.\w+|Scanner\.\w+|BufferedReader|FileReader|FileWriter|PrintWriter|println|printf|print|read|write|readLine)\b/`. -/
def ioPatternJava : Regex :=
  rcat [Regex.wordB,
        Regex.grp 1 (raltL
          [rcat [rlit "System.", Regex.grp 2 (rwordsAlt ["out", "err", "in"]),
                 rlit ".", rword1],
           rcat [rlit "Scanner.", rword1],
           rlit "BufferedReader", rlit "FileReader", rlit "FileWriter",
           rlit "PrintWriter", rlit "println", rlit "printf", rlit "print",
           rlit "read", rlit "write", rlit "readLine"]),
        Regex.wordB]

/-- `IO_PATTERNS.c = /\b(printf|scanf|fprintf|fscanf|fopen|fclose|fread|fwrite|puts|gets|getchar|putchar|fgets|fputs)\b/`. -/
def ioPatternC : Regex :=
  rcat [Regex.wordB,
        Regex.grp 1 (rwordsAlt
          ["printf", "scanf", "fprintf", "fscanf", "fopen", "fclose", "fread",
           "fwrite", "puts", "gets", "getchar", "putchar", "fgets", "fputs"]),
        Regex.wordB]

/-- `IO_PATTERNS.cpp = /\b(cout|cin|cerr|clog|printf|scanf|ifstream|ofstream|fstream|getline)\b/`. -/
def ioPatternCpp : Regex :=
  rcat [Regex.wordB,
        Regex.grp 1 (rwordsAlt
          ["cout", "cin", "cerr", "clog", "printf", "scanf", "ifstream",
           "ofstream", "fstream", "getline"]),
        Regex.wordB]

/-- `IO_PATTERNS.javascript = /\b(console\.(log|error|warn|info|debug|trace)|alert|prompt|confirm|document\.write|fs\.\w+|readFile|writeFile|process\.std(in|out|err))\b/`. -/
def ioPatternJs : Regex :=
  rcat [Regex.wordB,
        Regex.grp 1 (raltL
          [rcat [rlit "console.",
                 Regex.grp 2 (rwordsAlt ["log", "error", "warn", "info", "debug", "trace"])],
           rlit "alert", rlit "prompt", rlit "confirm", rlit "document.write",
           rcat [rlit "fs.", rword1],
           rlit "readFile", rlit "writeFile",
           rcat [rlit "process.std", Regex.grp 3 (rwordsAlt ["in", "out", "err"])]]),
        Regex.wordB]

/-- `NETWORK_PATTERNS.python = /\b(request|urlopen|socket|fetch|connect|send|recv)\b/`. -/
def networkPatternPy : Regex :=
  rcat [Regex.wordB,
        Regex.grp 1 (rwordsAlt
          ["request", "urlopen", "socket", "fetch", "connect", "send", "recv"]),
        Regex.wordB]

/-- `NETWORK_PATTERNS.java = /\b(HttpURLConnection|URL|Socket|ServerSocket|HttpClient|HttpRequest|RestTemplate|WebClient)\b/`. -/
def networkPatternJava : Regex :=
  rcat [Regex.wordB,
        Regex.grp 1 (rwordsAlt
          ["HttpURLConnection", "URL", "Socket", "ServerSocket", "HttpClient",
           "HttpRequest", "RestTemplate", "WebClient"]),
        Regex.wordB]

/-- `NETWORK_PATTERNS.c = /\b(socket|connect|send|recv|bind|listen|accept|curl_)\b/`. -/
def networkPatternC : Regex :=
  rcat [Regex.wordB,
        Regex.grp 1 (rwordsAlt
          ["socket", "connect", "send", "recv", "bind", "listen", "accept", "curl_"]),
        Regex.wordB]

/-- `NETWORK_PATTERNS.cpp = /\b(socket|connect|send|recv|boost::asio|curl_|httplib)\b/`. -/
def networkPatternCpp : Regex :=
  rcat [Regex.wordB,
        Regex.grp 1 (rwordsAlt
          ["socket", "connect", "send", "recv", "boost::asio", "curl_", "httplib"]),
        Regex.wordB]

/-- `NETWORK_PATTERNS.javascript = /\b(fetch|axios|XMLHttpRequest|http\.request|https\.request|WebSocket|net\.connect)\b/`. -/
def networkPatternJs : Regex :=
  rcat [Regex.wordB,
        Regex.grp 1 (rwordsAlt
          ["fetch", "axios", "XMLHttpRequest", "http.request", "https.request",
           "WebSocket", "net.connect"]),
        Regex.wordB]

/-- `ALLOC_PATTERNS.python = /\b(list|dict|set|tuple|bytearray|array|DataFrame|Series|ndarray|deepcopy|copy)\s*\(/`. -/
def allocPatternPy : Regex :=
  rcat [Regex.wordB,
        Regex.grp 1 (rwordsAlt
          ["list", "dict", "set", "tuple", "bytearray", "array", "DataFrame",
           "Series", "ndarray", "deepcopy", "copy"]),
        rws0, rlit "("]

/-- `ALLOC_PATTERNS.java = /\bnew\s+\w+/`. -/
def allocPatternJava : Regex := rcat [Regex.wordB, rlit "new", rws1, rword1]

/-- `ALLOC_PATTERNS.c = /\b(malloc|calloc|realloc|free|alloca)\b/`. -/
def allocPatternC : Regex :=
  rcat [Regex.wordB,
        Regex.grp 1 (rwordsAlt ["malloc", "calloc", "realloc", "free", "alloca"]),
        Regex.wordB]

/-- `ALLOC_PATTERNS.cpp = /\b(new\s+\w+|make_shared|make_unique|malloc|calloc|std::vector|std::map|std::unordered_map)\b/`. -/
def allocPatternCpp : Regex :=
  rcat [Regex.wordB,
        Regex.grp 1 (raltL
          [rcat [rlit "new", rws1, rword1],
           rlit "make_shared", rlit "make_unique", rlit "malloc", rlit "calloc",
           rlit "std::vector", rlit "std::map", rlit "std::unordered_map"]),
        Regex.wordB]

/-- `ALLOC_PATTERNS.javascript = /\bnew\s+\w+|Array\(|Object\.create|Map\(|Set\(/`
(the `\b` guards only the first alternative). -/
def allocPatternJs : Regex :=
  raltL [rcat [Regex.wordB, rlit "new", rws1, rword1],
         rlit "Array(", rlit "Object.create", rlit "Map(", rlit "Set("]

/-- `FUNC_PATTERNS.python = /(?:^|\n)\s*(?:async\s+)?def\s+(\w+)\s*\(/`, read
with the `gm` flags `extractBraceFunctions` recompiles it with (the only use
of the table; the Python path uses its own inline pattern instead). -/
def funcPatternPy : Regex :=
  rcat [Regex.alt Regex.bolM (Regex.chr (fun c => c = '\n')), rws0,
        ropt (rcat [rlit "async", rws1]), rlit "def", rws1,
        Regex.grp 1 rword1, rws0, rlit "("]

/-- `FUNC_PATTERNS.java = /(?:public|private|protected|static|\s)+[\w<>\[\]]+\s+(\w+)\s*\([^)]*\)\s*(?:throws\s+[\w,\s]+)?\s*\{/`. -/
def funcPatternJava : Regex :=
  rcat [rplus (raltL [rlit "public", rlit "private", rlit "protected", rlit "static",
                      Regex.chr isWsChar]),
        rplus (Regex.chr (fun c => isWordChar c || c = '<' || c = '>' || c = '[' || c = ']')),
        rws1, Regex.grp 1 rword1, rws0, rlit "(",
        rstar (Regex.chr (fun c => c ≠ ')')), rlit ")", rws0,
        ropt (rcat [rlit "throws", rws1,
                    rplus (Regex.chr (fun c => isWordChar c || c = ',' || isWsChar c))]),
        rws0, Regex.chr (fun c => c = braceOpenCh)]

/-- `FUNC_PATTERNS.c = /(?:static\s+)?(?:inline\s+)?(?:unsigned\s+)?(?:const\s+)?\w+[\s*]+(\w+)\s*\([^)]*\)\s*\{/`. -/
def funcPatternC : Regex :=
  rcat [ropt (rcat [rlit "static", rws1]), ropt (rcat [rlit "inline", rws1]),
        ropt (rcat [rlit "unsigned", rws1]), ropt (rcat [rlit "const", rws1]),
        rword1, rplus (Regex.chr (fun c => isWsChar c || c = '*')),
        Regex.grp 1 rword1, rws0, rlit "(",
        rstar (Regex.chr (fun c => c ≠ ')')), rlit ")", rws0,
        Regex.chr (fun c => c = braceOpenCh)]

/-- `FUNC_PATTERNS.cpp = /(?:static\s+)?(?:inline\s+)?(?:virtual\s+)?(?:unsigned\s+)?(?:const\s+)?[\w:<>]+[\s*&]+(\w+)\s*\([^)]*\)\s*(?:const)?\s*(?:override)?\s*\{/`. -/
def funcPatternCpp : Regex :=
  rcat [ropt (rcat [rlit "static", rws1]), ropt (rcat [rlit "inline", rws1]),
        ropt (rcat [rlit "virtual", rws1]), ropt (rcat [rlit "unsigned", rws1]),
        ropt (rcat [rlit "const", rws1]),
        rplus (Regex.chr (fun c => isWordChar c || c = ':' || c = '<' || c = '>')),
        rplus (Regex.chr (fun c => isWsChar c || c = '*' || c = '&')),
        Regex.grp 1 rword1, rws0, rlit "(",
        rstar (Regex.chr (fun c => c ≠ ')')), rlit ")", rws0,
        ropt (rlit "const"), rws0, ropt (rlit "override"), rws0,
        Regex.chr (fun c => c = braceOpenCh)]

/-- `FUNC_PATTERNS.javascript = /(?:function\s+(\w+)|(?:const|let|var)\s+(\w+)\s*=\s*(?:async\s+)?(?:function|\([^)]*\)\s*=>|\w+\s*=>))|(\w+)\s*\([^)]*\)\s*\{/`. -/
def funcPatternJs : Regex :=
  Regex.alt
    (Regex.alt
      (rcat [rlit "function", rws1, Regex.grp 1 rword1])
      (rcat [rwordsAlt ["const", "let", "var"], rws1, Regex.grp 2 rword1,
             rws0, rlit "=", rws0, ropt (rcat [rlit "async", rws1]),
             raltL [rlit "function",
                    rcat [rlit "(", rstar (Regex.chr (fun c => c ≠ ')')), rlit ")",
                          rws0, rlit "=>"],
                    rcat [rword1, rws0, rlit "=>"]]]))
    (rcat [Regex.grp 3 rword1, rws0, rlit "(",
           rstar (Regex.chr (fun c => c ≠ ')')), rlit ")", rws0,
           Regex.chr (fun c => c = braceOpenCh)])

/-- `FUNC_CALL_REGEX = /\b\w+\s*\(/`. -/
def funcCallRe : Regex := rcat [Regex.wordB, rword1, rws0, rlit "("]

/-- `FOR_HEADER_REGEX = /for\s*\(\s*(?:(?:int|var|let|const|auto|size_t)\s+)?(\w+)\s*=\s*(\d+)\s*;\s*\w+\s*(<|<=|>|>=)\s*(\d+|[A-Z_]+)\s*;/`. -/
def forHeaderRe : Regex :=
  rcat [rlit "for", rws0, rlit "(", rws0,
        ropt (rcat [rwordsAlt ["int", "var", "let", "const", "auto", "size_t"], rws1]),
        Regex.grp 1 rword1, rws0, rlit "=", rws0, Regex.grp 2 rdigit1, rws0, rlit ";",
        rws0, rword1, rws0, Regex.grp 3 (rwordsAlt ["<", "<=", ">", ">="]), rws0,
        Regex.grp 4 (Regex.alt rdigit1 (rplus (Regex.chr isConstHead))), rws0, rlit ";"]

/-- `FOR_SIMPLE_UPPER = /for\s*\([^;]*;\s*\w+\s*<\s*(\d+)\s*;/`. -/
def forSimpleUpperRe : Regex :=
  rcat [rlit "for", rws0, rlit "(", rstar (Regex.chr (fun c => c ≠ ';')), rlit ";",
        rws0, rword1, rws0, rlit "<", rws0, Regex.grp 1 rdigit1, rws0, rlit ";"]

/-- `WHILE_COND_REGEX = /while\s*\(\s*(\w+)\s*(<|>|<=|>=|!=)\s*(\d+|[A-Z_]+)\s*\)/`.
(`PYTHON_FOR_RANGE_REGEX` and `PYTHON_WHILE_REGEX` are also declared at module
scope but never used, so they are not transcribed.) -/
def whileCondRe : Regex :=
  rcat [rlit "while", rws0, rlit "(", rws0, Regex.grp 1 rword1, rws0,
        Regex.grp 2 (rwordsAlt ["<", ">", "<=", ">=", "!="]), rws0,
        Regex.grp 3 (Regex.alt rdigit1 (rplus (Regex.chr isConstHead))), rws0, rlit ")"]

/-- Block comments, `/\/\*[\s\S]*?\*\//g` (lazy, across newlines). -/
def blockCommentRe : Regex :=
  rcat [rlit "/*", Regex.rep false (Regex.chr (fun _ => true)), rlit "*/"]

/-- Line comments, `/\/\/.*$/gm`. -/
def lineCommentRe : Regex := rcat [rlit "//", rstar rdot, Regex.eolM]

/-- Python constants, `/^([A-Z_][A-Z0-9_]*)\s*=\s*(\d+)\s*$/gm`. -/
def pyConstRe : Regex :=
  rcat [Regex.bolM,
        Regex.grp 1 (Regex.seq (Regex.chr isConstHead) (rstar (Regex.chr isConstTail))),
        rws0, rlit "=", rws0, Regex.grp 2 rdigit1, rws0, Regex.eolM]

/-- C-family constants, `/(?:const|final|static|#define)\s+(?:\w+\s+)?(\w+)\s*=?\s*(\d+)/g`. -/
def cfConstRe : Regex :=
  rcat [rwordsAlt ["const", "final", "static", "#define"], rws1,
        ropt (rcat [rword1, rws1]), Regex.grp 1 rword1, rws0, ropt (rlit "="), rws0,
        Regex.grp 2 rdigit1]

/-- Python for lines, `/^(\s*)for\s+\w+\s+in\s+(.+):/` (whole raw line, so `^`
is the string start). -/
def pyForLineRe : Regex :=
  rcat [Regex.bos, Regex.grp 1 rws0, rlit "for", rws1, rword1, rws1, rlit "in",
        rws1, Regex.grp 2 (rplus rdot), rlit ":"]

/-- Python while lines, `/^(\s*)while\s+(.+):/`. -/
def pyWhileLineRe : Regex :=
  rcat [Regex.bos, Regex.grp 1 rws0, rlit "while", rws1, Regex.grp 2 (rplus rdot), rlit ":"]

/-- Python if/elif lines, `/^(\s*)(?:if|elif)\s+.+:/`. -/
def pyIfElifLineRe : Regex :=
  rcat [Regex.bos, Regex.grp 1 rws0, rwordsAlt ["if", "elif"], rws1, rplus rdot, rlit ":"]

/-- Python else lines, `/^(\s*)else\s*:/`. -/
def pyElseLineRe : Regex :=
  rcat [Regex.bos, Regex.grp 1 rws0, rlit "else", rws0, rlit ":"]

/-- Python def headers, `/^(\s*)(?:async\s+)?def\s+(\w+)\s*\(/`. -/
def pyDefLineRe : Regex :=
  rcat [Regex.bos, Regex.grp 1 rws0, ropt (rcat [rlit "async", rws1]), rlit "def",
        rws1, Regex.grp 2 rword1, rws0, rlit "("]

/-- `/^for\s*\(/` on a trimmed line. -/
def cfForLineRe : Regex := rcat [Regex.bos, rlit "for", rws0, rlit "("]

/-- `/^while\s*\(/`. -/
def cfWhileLineRe : Regex := rcat [Regex.bos, rlit "while", rws0, rlit "("]

/-- `/^do\s*\{?/` (note: no word boundary, so any line starting `do…`
matches). -/
def cfDoLineRe : Regex :=
  rcat [Regex.bos, rlit "do", rws0, ropt (Regex.chr (fun c => c = braceOpenCh))]

/-- `/^for\s*\(\s*(?:const|let|var|auto|final)?\s*(?:\w+\s+)?(\w+)\s*(?:of|in|:)/`. -/
def cfForeachLineRe : Regex :=
  rcat [Regex.bos, rlit "for", rws0, rlit "(", rws0,
        ropt (rwordsAlt ["const", "let", "var", "auto", "final"]), rws0,
        ropt (rcat [rword1, rws1]), Regex.grp 1 rword1, rws0,
        raltL [rlit "of", rlit "in", rlit ":"]]

/-- Arithmetic operators, `/(?<!=)[+\-*\/%](?!=)/g`. -/
def arithOpRe : Regex :=
  rcat [Regex.prevNot (fun c => c = '='),
        Regex.chr (fun c => c = '+' || c = '-' || c = '*' || c = '/' || c = '%'),
        Regex.nextNot (fun c => c = '=')]

/-- Assignments, `/(?<![=!<>])=(?!=)/g`. -/
def assignOpRe : Regex :=
  rcat [Regex.prevNot (fun c => c = '=' || c = '!' || c = '<' || c = '>'),
        rlit "=", Regex.nextNot (fun c => c = '=')]

/-- Comparisons, `/(==|!=|<=|>=|<|>)/g`. -/
def comparisonOpRe : Regex := Regex.grp 1 (rwordsAlt ["==", "!=", "<=", ">=", "<", ">"])

/-- Conditional keywords, `/\b(if|else|switch|case)\b/`. -/
def conditionalKwRe : Regex :=
  rcat [Regex.wordB, Regex.grp 1 (rwordsAlt ["if", "else", "switch", "case"]), Regex.wordB]

/-- Ternary, `/\?[^?]/`. -/
def ternaryRe : Regex := rcat [rlit "?", Regex.chr (fun c => c ≠ '?')]

/-- Array access, `/\[(?!\])/g`. -/
def arrayAccessRe : Regex := rcat [rlit "[", Regex.nextNot (fun c => c = ']')]

/-- `/^range\s*\(\s*(\d+)\s*\)$/`. -/
def rangeOneRe : Regex :=
  rcat [Regex.bos, rlit "range", rws0, rlit "(", rws0, Regex.grp 1 rdigit1, rws0,
        rlit ")", Regex.eos]

/-- `/^range\s*\(\s*(\d+)\s*,\s*(\d+)\s*\)$/`. -/
def rangeTwoRe : Regex :=
  rcat [Regex.bos, rlit "range", rws0, rlit "(", rws0, Regex.grp 1 rdigit1, rws0,
        rlit ",", rws0, Regex.grp 2 rdigit1, rws0, rlit ")", Regex.eos]

/-- `/^range\s*\(\s*(\d+)\s*,\s*(\d+)\s*,\s*(\d+)\s*\)$/`. -/
def rangeThreeRe : Regex :=
  rcat [Regex.bos, rlit "range", rws0, rlit "(", rws0, Regex.grp 1 rdigit1, rws0,
        rlit ",", rws0, Regex.grp 2 rdigit1, rws0, rlit ",", rws0,
        Regex.grp 3 rdigit1, rws0, rlit ")", Regex.eos]

/-- `/^range\s*\(\s*([A-Z_]\w*)\s*\)$/`. -/
def rangeVarRe : Regex :=
  rcat [Regex.bos, rlit "range", rws0, rlit "(", rws0,
        Regex.grp 1 (Regex.seq (Regex.chr isConstHead) (rstar (Regex.chr isWordChar))),
        rws0, rlit ")", Regex.eos]

/-- `/^range\s*\(\s*len\s*\(/`. -/
def rangeLenRe : Regex :=
  rcat [Regex.bos, rlit "range", rws0, rlit "(", rws0, rlit "len", rws0, rlit "("]

/-- `/^(enumerate|zip)\s*\(/`. -/
def enumZipRe : Regex :=
  rcat [Regex.bos, Regex.grp 1 (Regex.alt (rlit "enumerate") (rlit "zip")), rws0, rlit "("]

/-- `/^\[([^\]]*)\]$|^\(([^)]*)\)$|^\{([^}]*)\}$/`. -/
def literalIterRe : Regex :=
  raltL
    [rcat [Regex.bos, rlit "[", Regex.grp 1 (rstar (Regex.chr (fun c => c ≠ ']'))),
           rlit "]", Regex.eos],
     rcat [Regex.bos, rlit "(", Regex.grp 2 (rstar (Regex.chr (fun c => c ≠ ')'))),
           rlit ")", Regex.eos],
     rcat [Regex.bos, Regex.chr (fun c => c = braceOpenCh),
           Regex.grp 3 (rstar (Regex.chr (fun c => c ≠ braceCloseCh))),
           Regex.chr (fun c => c = braceCloseCh), Regex.eos]]

/-- `/^(\w+)\s*(<|>|<=|>=|!=)\s*(\d+|\w+)$/`. -/
def pyWhileCondRe : Regex :=
  rcat [Regex.bos, Regex.grp 1 rword1, rws0,
        Regex.grp 2 (rwordsAlt ["<", ">", "<=", ">=", "!="]), rws0,
        Regex.grp 3 (Regex.alt rdigit1 rword1), Regex.eos]

/-- The recursion probe `` new RegExp(`\b${escapeRegex(name)}\s*\(`, 'g') ``;
`escapeRegex` is the identity on the `\w+` names the extractors capture. -/
def recursionCallRe (name : String) : Regex :=
  rcat [Regex.wordB, rlit name, rws0, rlit "("]

/-- One iteration of `removePythonComments`' docstring-delimiter loop on the
state `(processedLine, inDocstring, docDelim)`: a single-line docstring is
cut out, an unterminated one truncates the line and opens docstring mode. -/
def pyDocstringScan (delim : String) : String × Bool × String → String × Bool × String
  | (line, inDoc, dd) =>
      match idxOfFrom line.toList delim.toList 0 with
      | Option.none => (line, inDoc, dd)
      | Option.some startIdx =>
          match idxOfFrom line.toList delim.toList (startIdx + 3) with
          | Option.some endIdx =>
              (String.mk (line.toList.take startIdx ++ line.toList.drop (endIdx + 3)),
               inDoc, dd)
          | Option.none => (String.mk (line.toList.take startIdx), true, delim)

/-- The `"""` delimiter. -/
def tripleQuoteD : String := "\"\"\""

/-- The `'''` delimiter. -/
def tripleQuoteS : String := String.mk ['\x27', '\x27', '\x27']

/-- The per-line tail of `removePythonComments` once any open docstring has
been handled: run the delimiter loop for `"""` then `'''`, then strip from the
first `#`. -/
def pyProcessLine (line : String) : String × Bool × String :=
  let st1 := pyDocstringScan tripleQuoteD (line, false, "")
  let st2 := pyDocstringScan tripleQuoteS st1
  let stripped :=
    match idxOfFrom st2.1.toList ['#'] 0 with
    | Option.some h => String.mk (st2.1.toList.take h)
    | Option.none => st2.1
  (stripped, st2.2.1, st2.2.2)

/-- The line loop of `removePythonComments`, threading the
`(inDocstring, docDelim)` state: inside a docstring a line without the
closing delimiter becomes empty, otherwise the text after the delimiter is
processed normally. -/
def removePythonCommentsLines : List String → Bool → String → List String
  | [], _, _ => []
  | line :: rest, inDoc, dd =>
      if inDoc then
        match idxOfFrom line.toList dd.toList 0 with
        | Option.none => "" :: removePythonCommentsLines rest true dd
        | Option.some endIdx =>
            let st := pyProcessLine (String.mk (line.toList.drop (endIdx + 3)))
            st.1 :: removePythonCommentsLines rest st.2.1 st.2.2
      else
        let st := pyProcessLine line
        st.1 :: removePythonCommentsLines rest st.2.1 st.2.2

/-- `removePythonComments`. -/
def removePythonComments (code : String) : String :=
  String.intercalate "\n" (removePythonCommentsLines (splitLines code) false "")

/-- `removeCStyleComments`: block comments first, then line comments. -/
def removeCStyleComments (code : String) : String :=
  regexRemoveAll lineCommentRe (regexRemoveAll blockCommentRe code)

/-- `removeComments`. -/
def removeComments (language code : String) : String :=
  if language = "python" then removePythonComments code else removeCStyleComments code

/-- `extractConstants`: every global match binds `NAME ↦ parseInt(NUMBER)`;
`Map.set` shadowing is the cons with first-match lookup of `VarMap`. -/
def regexExtractConstants (language : String) (code : String) : VarMap :=
  if language = "python" then
    (regexAllMatches pyConstRe code).foldl
      (fun vm m =>
        match capGet m.2.2 1, capGet m.2.2 2 with
        | Option.some name, Option.some num => (name, parseDigits num) :: vm
        | _, _ => vm) []
  else
    (regexAllMatches cfConstRe code).foldl
      (fun vm m =>
        match capGet m.2.2 1, capGet m.2.2 2 with
        | Option.some name, Option.some num => (name, parseDigits num) :: vm
        | _, _ => vm) []

/-- `IO_PATTERNS[langKey] || null` (the constructor's cache). -/
def regexIoPattern (langKey : String) : Option Regex :=
  if langKey = "python" then Option.some ioPatternPy
  else if langKey = "java" then Option.some ioPatternJava
  else if langKey = "c" then Option.some ioPatternC
  else if langKey = "cpp" then Option.some ioPatternCpp
  else if langKey = "javascript" then Option.some ioPatternJs
  else Option.none

/-- `NETWORK_PATTERNS[langKey] || null`. -/
def regexNetworkPattern (langKey : String) : Option Regex :=
  if langKey = "python" then Option.some networkPatternPy
  else if langKey = "java" then Option.some networkPatternJava
  else if langKey = "c" then Option.some networkPatternC
  else if langKey = "cpp" then Option.some networkPatternCpp
  else if langKey = "javascript" then Option.some networkPatternJs
  else Option.none

/-- `ALLOC_PATTERNS[langKey] || null`. -/
def regexAllocPattern (langKey : String) : Option Regex :=
  if langKey = "python" then Option.some allocPatternPy
  else if langKey = "java" then Option.some allocPatternJava
  else if langKey = "c" then Option.some allocPatternC
  else if langKey = "cpp" then Option.some allocPatternCpp
  else if langKey = "javascript" then Option.some allocPatternJs
  else Option.none

/-- `FUNC_PATTERNS[langKey] || null`. -/
def regexFuncPattern (langKey : String) : Option Regex :=
  if langKey = "python" then Option.some funcPatternPy
  else if langKey = "java" then Option.some funcPatternJava
  else if langKey = "c" then Option.some funcPatternC
  else if langKey = "cpp" then Option.some funcPatternCpp
  else if langKey = "javascript" then Option.some funcPatternJs
  else Option.none

/-- JS optional chaining `pattern?.test(line)` (`undefined` is falsy). -/
def optTest (p : Option Regex) (line : String) : Bool :=
  match p with
  | Option.some r => regexTest r line
  | Option.none => false

/-- `countLineOperations`.  The `ops.add` mutations accumulate onto the
caller's counter, so the function is modelled as the delta from the empty
counter; callers merge it in.  Skipped prefixes, the three pattern tests, the
per-character arithmetic classification, the counted assignment / comparison /
array matches (guarded by JS's null `match` result, hence the `> 0` tests),
the keyword-or-ternary conditional test and the function-call fallback mirror
the source order. -/
def countLineOperations (language : String) (line : String) (multiplier : Int) :
    OperationCount :=
  if line.isEmpty || jsStartsWith line "#" || jsStartsWith line "//" ||
      jsStartsWith line "import" || jsStartsWith line "using" then
    OperationCount.empty
  else
    let key := cfLangKey language
    let ioP := regexIoPattern key
    let netP := regexNetworkPattern key
    let allocP := regexAllocPattern key
    let o1 := if optTest ioP line then
        OperationCount.empty.add .io_operation multiplier else OperationCount.empty
    let o2 := if optTest netP line then o1.add .network_operation multiplier else o1
    let o3 := if optTest allocP line then o2.add .memory_allocation multiplier else o2
    let o4 := (regexAllMatches arithOpRe line).foldl
      (fun (acc : OperationCount) m =>
        if m.2.1 = "+" || m.2.1 = "-" then acc.add .addition multiplier
        else if m.2.1 = "*" then acc.add .multiplication multiplier
        else if m.2.1 = "/" || m.2.1 = "%" then acc.add .division multiplier
        else acc) o3
    let assigns := (regexAllMatches assignOpRe line).length
    let o5 := if assigns > 0 then o4.add .assignment (multiplier * (assigns : Int)) else o4
    let comps := (regexAllMatches comparisonOpRe line).length
    let o6 := if comps > 0 then o5.add .comparison (multiplier * (comps : Int)) else o5
    let o7 := if regexTest conditionalKwRe line || regexTest ternaryRe line then
        o6.add .conditional_branch multiplier else o6
    let arrs := (regexAllMatches arrayAccessRe line).length
    let o8 := if arrs > 0 then o7.add .array_access (multiplier * (arrs : Int)) else o7
    if regexTest funcCallRe line && !optTest ioP line && !optTest netP line &&
        !optTest allocP line then
      o8.add .function_call multiplier
    else o8

/-- `estimateForIterationsFromHeader`. -/
def estimateForIterationsFromHeader (vm : VarMap) (header : String) : Int :=
  match regexFind forHeaderRe header with
  | Option.some m =>
      let startVal := parseDigits ((capGet m.2.2 2).getD "")
      let op := (capGet m.2.2 3).getD ""
      let endStr := (capGet m.2.2 4).getD ""
      let endValOpt : Option Int :=
        if isAllDigits endStr then Option.some (parseDigits endStr)
        else List.lookup endStr vm
      (match endValOpt with
       | Option.none => DEFAULT_LOOP_ITERATIONS
       | Option.some endVal =>
           if op = "<" then max 0 (endVal - startVal)
           else if op = "<=" then max 0 (endVal - startVal + 1)
           else if op = ">" then max 0 (startVal - endVal)
           else if op = ">=" then max 0 (startVal - endVal + 1)
           else DEFAULT_LOOP_ITERATIONS)
  | Option.none =>
      match regexFind forSimpleUpperRe header with
      | Option.some m => parseDigits ((capGet m.2.2 1).getD "")
      | Option.none => DEFAULT_LOOP_ITERATIONS

/-- `estimateWhileIterationsFromCondition` (note: the captured comparison
operator is ignored; the resolved bound is returned as-is). -/
def estimateWhileIterationsFromCondition (vm : VarMap) (header : String) : Int :=
  match regexFind whileCondRe header with
  | Option.some m =>
      let endStr := (capGet m.2.2 3).getD ""
      (if isAllDigits endStr then parseDigits endStr
       else
         match List.lookup endStr vm with
         | Option.some v => v
         | Option.none => DEFAULT_LOOP_ITERATIONS)
  | Option.none => DEFAULT_LOOP_ITERATIONS

/-- `estimatePythonForIterations`: the five range forms, then `range(len(`,
`enumerate`/`zip`, then literal collections (an unresolved `range(VARIABLE)`
falls through to the later checks, as in the source). -/
def estimatePythonForIterations (vm : VarMap) (iterable : String) : Int :=
  match regexFind rangeOneRe iterable with
  | Option.some m => parseDigits ((capGet m.2.2 1).getD "")
  | Option.none =>
  match regexFind rangeTwoRe iterable with
  | Option.some m =>
      max 0 (parseDigits ((capGet m.2.2 2).getD "") - parseDigits ((capGet m.2.2 1).getD ""))
  | Option.none =>
  match regexFind rangeThreeRe iterable with
  | Option.some m =>
      let start := parseDigits ((capGet m.2.2 1).getD "")
      let stop := parseDigits ((capGet m.2.2 2).getD "")
      let step := parseDigits ((capGet m.2.2 3).getD "")
      if step > 0 then max 0 (jsCeilDiv (stop - start) step) else DEFAULT_LOOP_ITERATIONS
  | Option.none =>
  match (match regexFind rangeVarRe iterable with
         | Option.some m => List.lookup ((capGet m.2.2 1).getD "") vm
         | Option.none => Option.none) with
  | Option.some v => v
  | Option.none =>
  if regexTest rangeLenRe iterable then DEFAULT_LOOP_ITERATIONS
  else if regexTest enumZipRe iterable then DEFAULT_LOOP_ITERATIONS
  else
    match regexFind literalIterRe iterable with
    | Option.some m =>
        let content := capFirst m.2.2 [1, 2, 3] ""
        if (jsTrim content).isEmpty then 0 else ((splitOnComma content).length : Int)
    | Option.none => DEFAULT_LOOP_ITERATIONS

/-- `estimatePythonWhileIterations`. -/
def estimatePythonWhileIterations (vm : VarMap) (condition : String) : Int :=
  match regexFind pyWhileCondRe condition with
  | Option.some m =>
      let endStr := (capGet m.2.2 3).getD ""
      let endValOpt : Option Int :=
        if isAllDigits endStr then Option.some (parseDigits endStr)
        else List.lookup endStr vm
      (match endValOpt with
       | Option.some endVal => if endVal > 0 then endVal else DEFAULT_LOOP_ITERATIONS
       | Option.none => DEFAULT_LOOP_ITERATIONS)
  | Option.none => DEFAULT_LOOP_ITERATIONS

/-- The body-collection loop shared by `analyzePythonBlock` and
`extractPythonFunctions`: a following line belongs to the block while it is
blank (`trimEnd` empty) or indented strictly deeper than the header. -/
def pyBodyPred (indent : Nat) (ln : String) : Bool :=
  (jsTrimEnd ln).isEmpty || decide (ln.length - (jsTrimStart ln).length > indent)

/-- The collected body lines. -/
def pyBodyTake (indent : Nat) (lines : List String) : List String :=
  lines.takeWhile (pyBodyPred indent)

/-- The lines after the body. -/
def pyBodyDrop (indent : Nat) (lines : List String) : List String :=
  lines.dropWhile (pyBodyPred indent)

/-- `analyzePythonBlock`'s line loop.  Returns the operation delta and the
assumptions pushed, in push order; `i` is the invocation-local line index used
in the assumption text (each recursive block analysis restarts at 0, as each
JS call re-splits its own code).  The JS body recursion re-joins and re-splits
the collected lines; the round trip is the identity on a non-empty body, and
an empty body re-splits to a single blank line that the loop skips, so the
recursion runs on the body list directly.  The fuel is structural bookkeeping
only: every call site passes at least the line-list length plus one, and each
recursion drops at least one line, so the `0` case is never reached. -/
def analyzePythonBlockAux (language : String) (vm : VarMap) :
    Nat → List String → Nat → Int → OperationCount × List String
  | 0, _, _, _ => (OperationCount.empty, [])
  | _ + 1, [], _, _ => (OperationCount.empty, [])
  | fuel + 1, raw :: rest, i, multiplier =>
      let line := jsTrim raw
      if line.isEmpty || jsStartsWith line "#" then
        analyzePythonBlockAux language vm fuel rest (i + 1) multiplier
      else
        match regexFind pyForLineRe raw with
        | Option.some m =>
            let indent := ((capGet m.2.2 1).getD "").length
            let iterable := jsTrim ((capGet m.2.2 2).getD "")
            let iterations := estimatePythonForIterations vm iterable
            let body := pyBodyTake indent rest
            let after := pyBodyDrop indent rest
            let inner := analyzePythonBlockAux language vm fuel body 0 (multiplier * iterations)
            let outer :=
              analyzePythonBlockAux language vm fuel after (i + 1 + body.length) multiplier
            (((OperationCount.empty.add .comparison (multiplier * iterations)).merge
                inner.1).merge outer.1,
             ("Line " ++ toString (i + 1) ++ ": for-loop estimated " ++
                toString iterations ++ " iterations") :: (inner.2 ++ outer.2))
        | Option.none =>
        match regexFind pyWhileLineRe raw with
        | Option.some m =>
            let indent := ((capGet m.2.2 1).getD "").length
            let condition := jsTrim ((capGet m.2.2 2).getD "")
            let iterations := estimatePythonWhileIterations vm condition
            let body := pyBodyTake indent rest
            let after := pyBodyDrop indent rest
            let inner := analyzePythonBlockAux language vm fuel body 0 (multiplier * iterations)
            let outer :=
              analyzePythonBlockAux language vm fuel after (i + 1 + body.length) multiplier
            (((OperationCount.empty.add .comparison (multiplier * iterations)).merge
                inner.1).merge outer.1,
             ("Line " ++ toString (i + 1) ++ ": while-loop estimated " ++
                toString iterations ++ " iterations") :: (inner.2 ++ outer.2))
        | Option.none =>
        match regexFind pyIfElifLineRe raw with
        | Option.some m =>
            let indent := ((capGet m.2.2 1).getD "").length
            let body := pyBodyTake indent rest
            let after := pyBodyDrop indent rest
            let inner := analyzePythonBlockAux language vm fuel body 0 multiplier
            let outer :=
              analyzePythonBlockAux language vm fuel after (i + 1 + body.length) multiplier
            (((OperationCount.empty.add .conditional_branch multiplier).merge
                inner.1).merge outer.1,
             inner.2 ++ outer.2)
        | Option.none =>
        match regexFind pyElseLineRe raw with
        | Option.some m =>
            let indent := ((capGet m.2.2 1).getD "").length
            let body := pyBodyTake indent rest
            let after := pyBodyDrop indent rest
            let inner := analyzePythonBlockAux language vm fuel body 0 multiplier
            let outer :=
              analyzePythonBlockAux language vm fuel after (i + 1 + body.length) multiplier
            ((inner.1.merge outer.1), inner.2 ++ outer.2)
        | Option.none =>
            let outer := analyzePythonBlockAux language vm fuel rest (i + 1) multiplier
            ((countLineOperations language line multiplier).merge outer.1, outer.2)

/-- `analyzePythonBlock(code, ops, multiplier)` as a delta plus assumption
list. -/
def analyzePythonBlock (language : String) (vm : VarMap) (code : String)
    (multiplier : Int) : OperationCount × List String :=
  let lines := splitLines code
  analyzePythonBlockAux language vm (lines.length + 1) lines 0 multiplier

/-- `extractPythonFunctions`' scan loop: def headers open a function whose
body is collected by the same blank-or-deeper rule, everything else is a
global line (in order).  Returns (functions, assumptions, global lines).
The recursion probe runs on the joined body; the body analysis runs on the
body lines directly (see `analyzePythonBlockAux` on the join/split round
trip).  Fuel as in `analyzePythonBlockAux`. -/
def extractPythonFunctionsAux (language : String) (vm : VarMap) :
    Nat → List String → List FunctionAnalysis × List String × List String
  | 0, _ => ([], [], [])
  | _ + 1, [] => ([], [], [])
  | fuel + 1, raw :: rest =>
      match regexFind pyDefLineRe raw with
      | Option.some m =>
          let indent := ((capGet m.2.2 1).getD "").length
          let funcName := (capGet m.2.2 2).getD ""
          let funcLines := pyBodyTake indent rest
          let after := pyBodyDrop indent rest
          let funcCode := String.intercalate "\n" funcLines
          let isRec := regexTest (recursionCallRe funcName) funcCode
          let body := analyzePythonBlockAux language vm fuel funcLines 0 1
          let fops := if isRec then body.1.scale DEFAULT_RECURSION_DEPTH else body.1
          let fassumps :=
            body.2 ++
              (if isRec then
                 ["Function " ++ squote ++ funcName ++ squote ++ " is recursive — assumed " ++
                    toString DEFAULT_RECURSION_DEPTH ++ " recursive calls"]
               else [])
          let tail := extractPythonFunctionsAux language vm fuel after
          ({ name := funcName, operations := fops, isRecursive := isRec } :: tail.1,
           fassumps ++ tail.2.1, tail.2.2)
      | Option.none =>
          let tail := extractPythonFunctionsAux language vm fuel rest
          (tail.1, tail.2.1, raw :: tail.2.2)

/-- `extractPythonFunctions`: walk the lines, then analyze the joined global
lines as one block whose assumptions come last.  (An all-function source
leaves no global lines; JS analyzes the empty join's single blank line, a
no-op, matching the empty-list recursion.)  Returns
(functions, globalOperations, assumptions). -/
def extractPythonFunctions (language : String) (vm : VarMap) (code : String) :
    List FunctionAnalysis × OperationCount × List String :=
  let lines := splitLines code
  let walk := extractPythonFunctionsAux language vm (lines.length + 1) lines
  let globalLines := walk.2.2
  let g := analyzePythonBlockAux language vm (globalLines.length + 1) globalLines 0 1
  (walk.1, g.1, walk.2.1 ++ g.2)

/-- `extractBraceBlock`'s scan from the opening brace: the relative offset of
the brace that brings the depth back to zero. -/
def braceScanAux : List Char → Int → Nat → Option Nat
  | [], _, _ => Option.none
  | c :: rest, depth, pos =>
      if c = braceOpenCh then braceScanAux rest (depth + 1) (pos + 1)
      else if c = braceCloseCh then
        (if depth - 1 = 0 then Option.some pos else braceScanAux rest (depth - 1) (pos + 1))
      else braceScanAux rest depth (pos + 1)

/-- `extractBraceBlock(code, startIdx)`: the text between the brace at
`startIdx` and its match, or everything after `startIdx` when unbalanced. -/
def extractBraceBlock (code : String) (startIdx : Nat) : String :=
  match braceScanAux (code.toList.drop startIdx) 0 0 with
  | Option.some rel => String.mk ((code.toList.drop (startIdx + 1)).take (rel - 1))
  | Option.none => String.mk (code.toList.drop (startIdx + 1))

/-- The per-character brace tracking of `analyzeCodeByDepth`: `{` deepens,
`}` shallows and pops every loop whose recorded depth is now exceeded.  The
loop stack keeps its top at the head. -/
def popLoopsAbove (d : Int) : List (Int × Int) → List (Int × Int)
  | [] => []
  | (iter, bd) :: rest => if d < bd then popLoopsAbove d rest else (iter, bd) :: rest

/-- One character of the brace-counting loop over the state
(loop stack, brace depth). -/
def cdBraceStep (st : List (Int × Int) × Int) (c : Char) : List (Int × Int) × Int :=
  if c = braceOpenCh then (st.1, st.2 + 1)
  else if c = braceCloseCh then (popLoopsAbove (st.2 - 1) st.1, st.2 - 1)
  else st

/-- `analyzeCodeByDepth`'s line loop.  Braces are counted first (on the
trimmed line), then the cascade multiplier is the base times every stacked
loop's iterations; a for (that is not a for-each), for-each, while or do
header pushes a loop and charges `currentMultiplier × iterations` comparisons
with an assumption, any other line is counted at the cascade multiplier. -/
def analyzeCodeByDepthAux (language : String) (vm : VarMap) :
    List String → Nat → Int → List (Int × Int) → Int → OperationCount × List String
  | [], _, _, _, _ => (OperationCount.empty, [])
  | raw :: rest, i, baseMultiplier, stack0, depth0 =>
      let line := jsTrim raw
      if line.isEmpty then
        analyzeCodeByDepthAux language vm rest (i + 1) baseMultiplier stack0 depth0
      else
        let st := line.toList.foldl cdBraceStep (stack0, depth0)
        let stack := st.1
        let depth := st.2
        let currentMultiplier := stack.foldl (fun acc p => acc * p.1) baseMultiplier
        let isFor := regexTest cfForLineRe line
        let isForeach := regexTest cfForeachLineRe line
        if isFor && !isForeach then
          let iterations := estimateForIterationsFromHeader vm line
          let tail := analyzeCodeByDepthAux language vm rest (i + 1) baseMultiplier
            ((iterations, depth) :: stack) depth
          ((OperationCount.empty.add .comparison (currentMultiplier * iterations)).merge
             tail.1,
           ("Line " ++ toString (i + 1) ++ ": for-loop estimated " ++
              toString iterations ++ " iterations") :: tail.2)
        else if isForeach then
          let tail := analyzeCodeByDepthAux language vm rest (i + 1) baseMultiplier
            ((DEFAULT_LOOP_ITERATIONS, depth) :: stack) depth
          ((OperationCount.empty.add .comparison
              (currentMultiplier * DEFAULT_LOOP_ITERATIONS)).merge tail.1,
           ("Line " ++ toString (i + 1) ++ ": for-each loop assumed " ++
              toString DEFAULT_LOOP_ITERATIONS ++ " iterations") :: tail.2)
        else if regexTest cfWhileLineRe line then
          let iterations := estimateWhileIterationsFromCondition vm line
          let tail := analyzeCodeByDepthAux language vm rest (i + 1) baseMultiplier
            ((iterations, depth) :: stack) depth
          ((OperationCount.empty.add .comparison (currentMultiplier * iterations)).merge
             tail.1,
           ("Line " ++ toString (i + 1) ++ ": while-loop estimated " ++
              toString iterations ++ " iterations") :: tail.2)
        else if regexTest cfDoLineRe line then
          let tail := analyzeCodeByDepthAux language vm rest (i + 1) baseMultiplier
            ((DEFAULT_LOOP_ITERATIONS, depth) :: stack) depth
          ((OperationCount.empty.add .comparison
              (currentMultiplier * DEFAULT_LOOP_ITERATIONS)).merge tail.1,
           ("Line " ++ toString (i + 1) ++ ": do-while loop assumed " ++
              toString DEFAULT_LOOP_ITERATIONS ++ " iterations") :: tail.2)
        else
          let tail := analyzeCodeByDepthAux language vm rest (i + 1) baseMultiplier stack depth
          ((countLineOperations language line currentMultiplier).merge tail.1, tail.2)

/-- `analyzeCodeByDepth(code, ops, baseMultiplier)` as a delta plus
assumptions. -/
def analyzeCodeByDepth (language : String) (vm : VarMap) (code : String)
    (baseMultiplier : Int) : OperationCount × List String :=
  analyzeCodeByDepthAux language vm (splitLines code) 0 baseMultiplier [] 0

/-- The match loop of `extractBraceFunctions` over the collected header
matches, threading `lastEnd`: the global chunk before each header is analyzed
first; a header with no following `{` is skipped (`lastEnd` unchanged);
otherwise the brace block is the function body, recursion is probed, the body
is analyzed at multiplier 1 and scaled by 10 when recursive, and `lastEnd`
jumps past the closing brace.  The remaining tail is global.  Returns
(functions, globalOperations, assumptions). -/
def extractBraceFunctionsGo (language : String) (vm : VarMap) (code : String) :
    List (Nat × String × List (Nat × String)) → Nat →
      List FunctionAnalysis × OperationCount × List String
  | [], lastEnd =>
      if lastEnd < code.length then
        let g := analyzeCodeByDepth language vm (String.mk (code.toList.drop lastEnd)) 1
        ([], g.1, g.2)
      else ([], OperationCount.empty, [])
  | fm :: more, lastEnd =>
      let pre :=
        if fm.1 > lastEnd then
          analyzeCodeByDepth language vm
            (String.mk ((code.toList.drop lastEnd).take (fm.1 - lastEnd))) 1
        else (OperationCount.empty, [])
      match idxOfFrom code.toList [braceOpenCh] fm.1 with
      | Option.none =>
          let tail := extractBraceFunctionsGo language vm code more lastEnd
          (tail.1, pre.1.merge tail.2.1, pre.2 ++ tail.2.2)
      | Option.some openBrace =>
          let funcName := capFirst fm.2.2 [1, 2, 3] "unknown"
          let funcBody := extractBraceBlock code openBrace
          let isRec := regexTest (recursionCallRe funcName) funcBody
          let body := analyzeCodeByDepth language vm funcBody 1
          let fops := if isRec then body.1.scale DEFAULT_RECURSION_DEPTH else body.1
          let fassumps :=
            body.2 ++
              (if isRec then
                 ["Function " ++ squote ++ funcName ++ squote ++ " is recursive — assumed " ++
                    toString DEFAULT_RECURSION_DEPTH ++ " recursive calls"]
               else [])
          let tail := extractBraceFunctionsGo language vm code more
            (openBrace + funcBody.length + 2)
          ({ name := funcName, operations := fops, isRecursive := isRec } :: tail.1,
           pre.1.merge tail.2.1, pre.2 ++ fassumps ++ tail.2.2)

/-- `extractBraceFunctions`: without a function pattern, or with no header
match, everything is global; otherwise the header matches (name =
`match[1] || match[2] || match[3] || 'unknown'`) drive the loop above. -/
def extractBraceFunctions (language : String) (vm : VarMap) (code : String) :
    List FunctionAnalysis × OperationCount × List String :=
  match regexFuncPattern (cfLangKey language) with
  | Option.none =>
      let g := analyzeCodeByDepth language vm code 1
      ([], g.1, g.2)
  | Option.some pat =>
      let allMs := regexAllMatches pat code
      if allMs.isEmpty then
        let g := analyzeCodeByDepth language vm code 1
        ([], g.1, g.2)
      else extractBraceFunctionsGo language vm code allMs 0

/-- The extraction phases of `RegexAnalyzer.analyze` after the three leading
notes: strip comments, collect constants, then extract and analyze functions
by the language's dialect.  (`maxNesting` bookkeeping touches no modelled
field and is skipped, as in the tree-sitter walkers.)  Returns
(functions, globalOperations, assumptions-pushed-during-extraction). -/
def regexCollected (language : String) (code : String) :
    List FunctionAnalysis × OperationCount × List String :=
  let cleanCode := removeComments language code
  let vm := regexExtractConstants language cleanCode
  if language = "python" then extractPythonFunctions language vm cleanCode
  else extractBraceFunctions language vm cleanCode

/-- `RegexAnalyzer.analyze(code, filePath)`: a fresh result for the
constructor's language, three leading assumption notes — the regex-fallback
banner for the language, then the energy and carbon constants in their JS
string renderings — followed by whatever the extraction pushes. -/
def regexAnalyze (language : String) (code : String) (filePath : Option String) :
    AnalysisResult :=
  let ex := regexCollected language code
  { language := language
    filePath := filePath
    functions := ex.1
    globalOperations := ex.2.1
    assumptions :=
      ("Regex-based analysis (tree-sitter unavailable) for " ++ language) ::
      "Energy per operation: 3e-9 J" ::
      "Carbon intensity: 475 gCO2/kWh (global average)" :: ex.2.2 }

/-- `estimateCarbonFootprintSync` from index.ts:
`language = languageOverride || detectLanguage(filePath, code)`; when that is
falsy, return the empty result carrying only the undetected-language
assumption; otherwise run the regex fallback analyzer.  (`detectLanguage`
returns one of six non-empty tags, so the guard models the JS truthiness test
on a string.) -/
def estimateCarbonFootprintSync (code : String) (filePath : Option String)
    (languageOverride : Option String) : AnalysisResult :=
  let language :=
    match languageOverride with
    | Option.some o => if o.isEmpty then (detectLanguage filePath (Option.some code)).toStr else o
    | Option.none => (detectLanguage filePath (Option.some code)).toStr
  if language.isEmpty then
    { language := "unknown"
      filePath := filePath
      functions := []
      globalOperations := OperationCount.empty
      assumptions := [undetectedMessage] }
  else
    regexAnalyze language code filePath

-- =============================================================================
-- Definitions used only to state properties
-- =============================================================================

/-- Written from the spec's words for the hotspot ordering: function `p`
precedes function `q` when it has strictly more weighted operations, or the
same weighted operations and an earlier (or equal) definition index.  Over
distinct indices this is a linear order, so sorting by it is the unique
"descending by weighted ops, ties by definition order" arrangement. -/
def lexHotspotOrder (p q : Nat × FunctionAnalysis) : Prop :=
  q.2.weightedOps < p.2.weightedOps ∨
    (q.2.weightedOps = p.2.weightedOps ∧ p.1 ≤ q.1)

instance : DecidableRel lexHotspotOrder := fun p q => by
  unfold lexHotspotOrder; infer_instance

/-- Pair each function with its definition index, starting at `n`. -/
def enumFns (n : Nat) : List FunctionAnalysis → List (Nat × FunctionAnalysis)
  | [] => []
  | f :: fs => (n, f) :: enumFns (n + 1) fs

/-- Written from the spec's words: the top five functions ordered by weighted
operations descending with ties broken by definition (index) order. -/
def hotspotsByDefinitionOrder (r : AnalysisResult) : List FunctionAnalysis :=
  (((enumFns 0 r.functions).insertionSort lexHotspotOrder).take 5).map Prod.snd

/-- `k` Python `for` loops over `range` of the given literal bounds, nested
innermost around the statement. -/
def nestLoops : List Int → PyStmt → PyStmt
  | [], s => s
  | n :: ns, s =>
      .forStmt (.some (.callE (.cid "range") (.pos (.intLit n) .nil)))
        (.cons (nestLoops ns s) .nil) .none

/-- The comparisons the nested loop headers charge: at outer multiplier `m`
and bounds `n₁ … n_k`, the header of loop `j` charges
`m · n₁ · … · n_j` comparisons. -/
def nestHeaderComparisons (m : Int) : List Int → Int
  | [] => 0
  | n :: ns => m * n + nestHeaderComparisons (m * n) ns

-- =============================================================================
-- Lemmas: counter algebra
-- =============================================================================

set_option maxHeartbeats 1000000

theorem OperationCount.empty_apply (k : OpType) : OperationCount.empty k = 0 := rfl

theorem OperationCount.merge_apply (a b : OperationCount) (k : OpType) :
    a.merge b k = a k + b k := rfl

theorem OperationCount.add_apply (c : OperationCount) (t : OpType) (n : Int) (k : OpType) :
    c.add t n k = if k = t then c t + n else c k := rfl

theorem OperationCount.scale_apply (c : OperationCount) (f : Int) (k : OpType) :
    c.scale f k = c k * f := rfl

theorem foldl_merge_apply (l : List OperationCount) (init : OperationCount) (k : OpType) :
    (l.foldl OperationCount.merge init) k = init k + (l.map (fun c => c k)).sum := by
  induction l generalizing init with
  | nil => simp
  | cons c rest ih =>
      simp only [List.foldl_cons, List.map_cons, List.sum_cons, ih,
        OperationCount.merge_apply]
      ring

-- =============================================================================
-- Lemmas: the loop multiplier is a linear parameter of the Python walk
-- =============================================================================

theorem pyClassifyCall_mul (callee : PyCallee) (a m : Int) (k : OpType) :
    pyClassifyCall callee (a * m) k = a * pyClassifyCall callee m k := by
  unfold pyClassifyCall
  cases PyCallee.getCallName callee with
  | none =>
      simp only [OperationCount.add_apply, OperationCount.empty_apply]
      split_ifs <;> ring
  | some n =>
      dsimp only []
      split_ifs <;>
        (simp only [OperationCount.add_apply, OperationCount.empty_apply]
         split_ifs <;> ring)

mutual

theorem pyAnalyzeExpr_mul : ∀ (e : PyExpr) (a m : Int) (k : OpType),
    pyAnalyzeExpr e (a * m) k = a * pyAnalyzeExpr e m k
  | .binOp op l r, a, m, k => by
      simp only [pyAnalyzeExpr, OperationCount.merge_apply, OperationCount.add_apply,
        OperationCount.empty_apply, pyAnalyzeExpr_mul l a m, pyAnalyzeExpr_mul r a m,
        apply_ite (fun c : OperationCount => c k)]
      split_ifs <;> ring
  | .cmpOp operands ops, a, m, k => by
      simp only [pyAnalyzeExpr, OperationCount.merge_apply, OperationCount.add_apply,
        OperationCount.empty_apply, pyAnalyzeExprList_mul operands a m]
      split_ifs <;> ring
  | .boolOp l r, a, m, k => by
      simp only [pyAnalyzeExpr, OperationCount.merge_apply, OperationCount.add_apply,
        OperationCount.empty_apply, pyAnalyzeExpr_mul l a m, pyAnalyzeExpr_mul r a m]
      split_ifs <;> ring
  | .notOp arg, a, m, k => by
      simp only [pyAnalyzeExpr, OperationCount.merge_apply, OperationCount.add_apply,
        OperationCount.empty_apply, pyAnalyzeExpr_mul arg a m]
      split_ifs <;> ring
  | .unaryOp op arg, a, m, k => by
      simp only [pyAnalyzeExpr, OperationCount.merge_apply, OperationCount.add_apply,
        OperationCount.empty_apply, pyAnalyzeExpr_mul arg a m]
      split_ifs <;> ring
  | .callE callee args, a, m, k => by
      simp only [pyAnalyzeExpr, OperationCount.merge_apply, pyAnalyzeArgs_mul args a m,
        pyClassifyCall_mul callee a m]
      ring
  | .subscript v i, a, m, k => by
      simp only [pyAnalyzeExpr, OperationCount.merge_apply, OperationCount.add_apply,
        OperationCount.empty_apply, pyAnalyzeExpr_mul v a m, pyAnalyzeExpr_mul i a m]
      split_ifs <;> ring
  | .ident n, a, m, k => by
      simp only [pyAnalyzeExpr, OperationCount.empty_apply]; ring
  | .intLit v, a, m, k => by
      simp only [pyAnalyzeExpr, OperationCount.empty_apply]; ring
  | .stringLit t, a, m, k => by
      simp only [pyAnalyzeExpr, OperationCount.empty_apply]; ring
  | .listLit elts, a, m, k => by
      simp only [pyAnalyzeExpr, OperationCount.merge_apply, OperationCount.add_apply,
        OperationCount.empty_apply, pyAnalyzeExprList_mul elts a m,
        apply_ite (fun c : OperationCount => c k)]
      split_ifs <;> ring
  | .tupleLit elts, a, m, k => by
      simp only [pyAnalyzeExpr, OperationCount.merge_apply, OperationCount.add_apply,
        OperationCount.empty_apply, pyAnalyzeExprList_mul elts a m,
        apply_ite (fun c : OperationCount => c k)]
      split_ifs <;> ring
  | .paren inner, a, m, k => by
      simp only [pyAnalyzeExpr, pyAnalyzeExpr_mul inner a m]

theorem pyAnalyzeExprList_mul : ∀ (es : PyExprList) (a m : Int) (k : OpType),
    pyAnalyzeExprList es (a * m) k = a * pyAnalyzeExprList es m k
  | .nil, a, m, k => by
      simp only [pyAnalyzeExprList, OperationCount.empty_apply]; ring
  | .cons e rest, a, m, k => by
      simp only [pyAnalyzeExprList, OperationCount.merge_apply, pyAnalyzeExpr_mul e a m,
        pyAnalyzeExprList_mul rest a m]
      ring

theorem pyAnalyzeArgs_mul : ∀ (args : PyArgs) (a m : Int) (k : OpType),
    pyAnalyzeArgs args (a * m) k = a * pyAnalyzeArgs args m k
  | .nil, a, m, k => by
      simp only [pyAnalyzeArgs, OperationCount.empty_apply]; ring
  | .pos e rest, a, m, k => by
      simp only [pyAnalyzeArgs, OperationCount.merge_apply, pyAnalyzeExpr_mul e a m,
        pyAnalyzeArgs_mul rest a m]
      ring
  | .kw v rest, a, m, k => by
      simp only [pyAnalyzeArgs, OperationCount.merge_apply, pyAnalyzeExpr_mul v a m,
        pyAnalyzeArgs_mul rest a m]
      ring

end

mutual

theorem pyAnalyzeNode_mul : ∀ (vm : VarMap) (s : PyStmt) (a m : Int) (k : OpType),
    pyAnalyzeNode vm s (a * m) k = a * pyAnalyzeNode vm s m k
  | vm, .exprStmt es, a, m, k => by
      simp only [pyAnalyzeNode, pyAnalyzeExprList_mul es a m]
  | vm, .assign lhs rhs, a, m, k => by
      simp only [pyAnalyzeNode, OperationCount.merge_apply, OperationCount.add_apply,
        OperationCount.empty_apply, pyAnalyzeExpr_mul rhs a m]
      split_ifs <;> ring
  | vm, .augAssign lt op rhs, a, m, k => by
      simp only [pyAnalyzeNode, OperationCount.merge_apply, OperationCount.add_apply,
        OperationCount.empty_apply, pyAnalyzeExpr_mul rhs a m,
        apply_ite (fun c : OperationCount => c k)]
      split_ifs <;> ring
  | vm, .forStmt it body els, a, m, k => by
      cases it with
      | some iter =>
          cases els with
          | some b =>
              simp only [pyAnalyzeNode, OperationCount.merge_apply, OperationCount.add_apply,
                OperationCount.empty_apply, mul_assoc]
              rw [pyAnalyzeBlock_mul vm body a (m * pyEstimateForIterations vm iter) k,
                pyAnalyzeBlock_mul vm b a m]
              split_ifs <;> ring
          | none =>
              simp only [pyAnalyzeNode, OperationCount.merge_apply, OperationCount.add_apply,
                OperationCount.empty_apply, mul_assoc]
              rw [pyAnalyzeBlock_mul vm body a (m * pyEstimateForIterations vm iter) k]
              split_ifs <;> ring
      | none =>
          cases els with
          | some b =>
              simp only [pyAnalyzeNode, OperationCount.merge_apply, OperationCount.add_apply,
                OperationCount.empty_apply, mul_assoc]
              rw [pyAnalyzeBlock_mul vm body a (m * DEFAULT_LOOP_ITERATIONS) k,
                pyAnalyzeBlock_mul vm b a m]
              split_ifs <;> ring
          | none =>
              simp only [pyAnalyzeNode, OperationCount.merge_apply, OperationCount.add_apply,
                OperationCount.empty_apply, mul_assoc]
              rw [pyAnalyzeBlock_mul vm body a (m * DEFAULT_LOOP_ITERATIONS) k]
              split_ifs <;> ring
  | vm, .whileStmt cond body els, a, m, k => by
      cases cond with
      | some c =>
          cases els with
          | some b =>
              simp only [pyAnalyzeNode, OperationCount.merge_apply, OperationCount.add_apply,
                OperationCount.empty_apply, mul_assoc, pyAnalyzeExpr_mul c a m]
              rw [pyAnalyzeBlock_mul vm body a (m * pyEstimateWhileIterations vm c body) k,
                pyAnalyzeBlock_mul vm b a m]
              split_ifs <;> ring
          | none =>
              simp only [pyAnalyzeNode, OperationCount.merge_apply, OperationCount.add_apply,
                OperationCount.empty_apply, mul_assoc, pyAnalyzeExpr_mul c a m]
              rw [pyAnalyzeBlock_mul vm body a (m * pyEstimateWhileIterations vm c body) k]
              split_ifs <;> ring
      | none =>
          cases els with
          | some b =>
              simp only [pyAnalyzeNode, OperationCount.merge_apply, OperationCount.add_apply,
                OperationCount.empty_apply, mul_assoc]
              rw [pyAnalyzeBlock_mul vm body a (m * DEFAULT_LOOP_ITERATIONS) k,
                pyAnalyzeBlock_mul vm b a m]
              split_ifs <;> ring
          | none =>
              simp only [pyAnalyzeNode, OperationCount.merge_apply, OperationCount.add_apply,
                OperationCount.empty_apply, mul_assoc]
              rw [pyAnalyzeBlock_mul vm body a (m * DEFAULT_LOOP_ITERATIONS) k]
              split_ifs <;> ring
  | vm, .ifStmt cond cons alt, a, m, k => by
      have hcons := pyAnalyzeBlock_mul vm cons a m
      cases cond with
      | some c =>
          cases alt with
          | some ia =>
              cases ia with
              | elifClause s =>
                  simp only [pyAnalyzeNode, OperationCount.merge_apply, OperationCount.add_apply,
                    OperationCount.empty_apply, pyAnalyzeExpr_mul c a m, hcons,
                    pyAnalyzeNode_mul vm s a m]
                  split_ifs <;> ring
              | elseClause b =>
                  simp only [pyAnalyzeNode, OperationCount.merge_apply, OperationCount.add_apply,
                    OperationCount.empty_apply, pyAnalyzeExpr_mul c a m, hcons,
                    pyAnalyzeBlock_mul vm b a m]
                  split_ifs <;> ring
          | none =>
              simp only [pyAnalyzeNode, OperationCount.merge_apply, OperationCount.add_apply,
                OperationCount.empty_apply, pyAnalyzeExpr_mul c a m, hcons]
              split_ifs <;> ring
      | none =>
          cases alt with
          | some ia =>
              cases ia with
              | elifClause s =>
                  simp only [pyAnalyzeNode, OperationCount.merge_apply, OperationCount.add_apply,
                    OperationCount.empty_apply, hcons, pyAnalyzeNode_mul vm s a m]
                  split_ifs <;> ring
              | elseClause b =>
                  simp only [pyAnalyzeNode, OperationCount.merge_apply, OperationCount.add_apply,
                    OperationCount.empty_apply, hcons, pyAnalyzeBlock_mul vm b a m]
                  split_ifs <;> ring
          | none =>
              simp only [pyAnalyzeNode, OperationCount.merge_apply, OperationCount.add_apply,
                OperationCount.empty_apply, hcons]
              split_ifs <;> ring
  | vm, .returnStmt es, a, m, k => by
      simp only [pyAnalyzeNode, pyAnalyzeExprList_mul es a m]
  | vm, .passStmt, a, m, k => by
      simp only [pyAnalyzeNode, OperationCount.empty_apply]; ring
  | vm, .breakStmt, a, m, k => by
      simp only [pyAnalyzeNode, OperationCount.empty_apply]; ring
  | vm, .continueStmt, a, m, k => by
      simp only [pyAnalyzeNode, OperationCount.empty_apply]; ring
  | vm, .raiseStmt, a, m, k => by
      simp only [pyAnalyzeNode, OperationCount.add_apply, OperationCount.empty_apply]
      split_ifs <;> ring
  | vm, .deleteStmt, a, m, k => by
      simp only [pyAnalyzeNode, OperationCount.add_apply, OperationCount.empty_apply]
      split_ifs <;> ring
  | vm, .funcDef n p b, a, m, k => by
      simp only [pyAnalyzeNode, OperationCount.empty_apply]; ring

theorem pyAnalyzeBlock_mul : ∀ (vm : VarMap) (b : PyBlock) (a m : Int) (k : OpType),
    pyAnalyzeBlock vm b (a * m) k = a * pyAnalyzeBlock vm b m k
  | vm, .nil, a, m, k => by
      simp only [pyAnalyzeBlock, OperationCount.empty_apply]; ring
  | vm, .cons s rest, a, m, k => by
      simp only [pyAnalyzeBlock, OperationCount.merge_apply, pyAnalyzeNode_mul vm s a m,
        pyAnalyzeBlock_mul vm rest a m]
      ring

end

-- =============================================================================
-- Lemmas: the JS stable sort and the spec's tie-broken ordering agree
-- =============================================================================

instance : IsTotal FunctionAnalysis hotspotOrder :=
  ⟨fun a b => (Int.le_total b.weightedOps a.weightedOps).elim Or.inl Or.inr⟩

instance : IsTrans FunctionAnalysis hotspotOrder :=
  ⟨fun _ _ _ hab hbc => le_trans hbc hab⟩

theorem mem_enumFns {p : Nat × FunctionAnalysis} :
    ∀ {n : Nat} {l : List FunctionAnalysis}, p ∈ enumFns n l → n ≤ p.1 := by
  intro n l
  induction l generalizing n with
  | nil => intro h; simp [enumFns] at h
  | cons f fs ih =>
      intro h
      simp only [enumFns, List.mem_cons] at h
      rcases h with h | h
      · subst h; exact le_refl _
      · exact Nat.le_of_succ_le (ih h)

theorem lexHotspotOrder_iff {n : Nat} {x : FunctionAnalysis} {q : Nat × FunctionAnalysis}
    (hn : n < q.1) : lexHotspotOrder (n, x) q ↔ hotspotOrder x q.2 := by
  unfold lexHotspotOrder hotspotOrder
  constructor
  · rintro (h | ⟨h, _⟩)
    · exact le_of_lt h
    · exact le_of_eq h
  · intro h
    rcases lt_or_eq_of_le h with h' | h'
    · exact Or.inl h'
    · exact Or.inr ⟨h', Nat.le_of_lt hn⟩

theorem orderedInsert_enum (x : FunctionAnalysis) (n : Nat) :
    ∀ (v : List (Nat × FunctionAnalysis)), (∀ p ∈ v, n < p.1) →
      List.orderedInsert hotspotOrder x (v.map Prod.snd) =
        (List.orderedInsert lexHotspotOrder (n, x) v).map Prod.snd := by
  intro v
  induction v with
  | nil => intro _; rfl
  | cons q qs ih =>
      intro hv
      have hq : n < q.1 := hv q (List.mem_cons_self q qs)
      by_cases hord : hotspotOrder x q.2
      · have hlex : lexHotspotOrder (n, x) q := (lexHotspotOrder_iff hq).mpr hord
        simp only [List.map_cons, List.orderedInsert, if_pos hord, if_pos hlex, List.map_cons]
      · have hlex : ¬ lexHotspotOrder (n, x) q := fun h => hord ((lexHotspotOrder_iff hq).mp h)
        simp only [List.map_cons, List.orderedInsert, if_neg hord, if_neg hlex, List.map_cons]
        rw [ih (fun p hp => hv p (List.mem_cons_of_mem q hp))]

theorem insertionSort_enum :
    ∀ (l : List FunctionAnalysis) (n : Nat),
      List.insertionSort hotspotOrder l =
        (List.insertionSort lexHotspotOrder (enumFns n l)).map Prod.snd := by
  intro l
  induction l with
  | nil => intro n; rfl
  | cons x xs ih =>
      intro n
      have hbound : ∀ p ∈ List.insertionSort lexHotspotOrder (enumFns (n + 1) xs), n < p.1 := by
        intro p hp
        have hmem : p ∈ enumFns (n + 1) xs :=
          (List.perm_insertionSort lexHotspotOrder (enumFns (n + 1) xs)).mem_iff.mp hp
        exact Nat.lt_of_succ_le (mem_enumFns hmem)
      calc List.insertionSort hotspotOrder (x :: xs)
          = List.orderedInsert hotspotOrder x (List.insertionSort hotspotOrder xs) := rfl
        _ = List.orderedInsert hotspotOrder x
              ((List.insertionSort lexHotspotOrder (enumFns (n + 1) xs)).map Prod.snd) := by
              rw [ih (n + 1)]
        _ = (List.orderedInsert lexHotspotOrder (n, x)
              (List.insertionSort lexHotspotOrder (enumFns (n + 1) xs))).map Prod.snd :=
              orderedInsert_enum x n _ hbound
        _ = (List.insertionSort lexHotspotOrder (enumFns n (x :: xs))).map Prod.snd := rfl

-- =============================================================================
-- Claim C2
-- =============================================================================

/-- C2: for every `AnalysisResult`, the derived `totalOperations` counter is
the pointwise merge of `globalOperations` with the operation counters of every
listed function: for each of the twelve operation kinds, the total count is
the global count plus the sum over all functions of that function's count. -/
theorem spec_C2 (r : AnalysisResult) (k : OpType) :
    r.totalOperations k =
      r.globalOperations k + (r.functions.map (fun f => f.operations k)).sum := by
  unfold AnalysisResult.totalOperations
  rw [foldl_merge_apply]
  simp only [OperationCount.merge_apply, OperationCount.empty_apply, List.map_map]
  ring_nf
  rfl

-- =============================================================================
-- Claim C10
-- =============================================================================

/-- C10: merging counter `b` into counter `a` adds their weighted totals:
`totalWeighted` (Σ count × weight over the twelve kinds) is an additive
homomorphism with respect to `merge`. -/
theorem spec_C10 (a b : OperationCount) :
    (a.merge b).totalWeighted = a.totalWeighted + b.totalWeighted := by
  simp only [OperationCount.totalWeighted, ALL_OP_TYPES, List.map_cons, List.map_nil,
    List.sum_cons, List.sum_nil, OperationCount.merge_apply]
  ring

-- =============================================================================
-- Claim C8 (corrected)
-- =============================================================================

/-- C8 counterexample: `add` is not saturating — adding a negative count to a
fresh counter drives the stored count below zero, refuting "after the call the
stored count for k is always ≥ 0". -/
theorem spec_C8_counterexample :
    (OperationCount.empty.add OpType.addition (-5)) OpType.addition = -5 ∧
      ¬ (0 ≤ (OperationCount.empty.add OpType.addition (-5)) OpType.addition) := by
  constructor
  · rfl
  · decide

/-- C8 as amended: `add(k, n)` is plain unclamped addition — the stored count
for `k` becomes the old count plus `n` for every `n` (so a negative `n` can
drive it below zero), every other kind is unchanged, and non-negativity is
preserved only when the old count and `n` are both non-negative. -/
theorem spec_C8_amended (c : OperationCount) (k : OpType) (n : Int) (k2 : OpType) :
    (c.add k n) k = c k + n ∧
      (k2 ≠ k → (c.add k n) k2 = c k2) ∧
      (0 ≤ c k → 0 ≤ n → 0 ≤ (c.add k n) k) := by
  refine ⟨by simp [OperationCount.add_apply], fun h => ?_, fun h1 h2 => ?_⟩
  · simp [OperationCount.add_apply, h]
  · simp only [OperationCount.add_apply, if_pos rfl]
    omega

/-- Witness for the amended C8 at a concrete counter. -/
theorem spec_C8_amended_witness :
    (OperationCount.empty.add OpType.addition 3) OpType.subtraction =
        OperationCount.empty OpType.subtraction ∧
      0 ≤ (OperationCount.empty.add OpType.addition 3) OpType.addition := by
  have h := spec_C8_amended OperationCount.empty OpType.addition 3 OpType.subtraction
  exact ⟨h.2.1 (by decide), h.2.2 (by decide) (by decide)⟩

-- =============================================================================
-- Claim C4
-- =============================================================================

/-- C4: with base energy `B = energyJoules`, the carbon breakdown satisfies
`userEnd = B × 1.2 × 1000`, `developerEnd = B × 5`,
`serverSide = B × 1.58 × 10000 + 0.001 × 10000`, each tier's carbon grams are
`(energyJoules / 3600000) × 475`, and the total tier is the sum of the three
tiers in both energy and carbon. -/
theorem spec_C4 (r : AnalysisResult) :
    r.carbonBreakdown.userEnd.energyJoules = r.energyJoules * (1.2 : Rat) * 1000 ∧
      r.carbonBreakdown.developerEnd.energyJoules = r.energyJoules * 5 ∧
      r.carbonBreakdown.serverSide.energyJoules =
        r.energyJoules * (1.58 : Rat) * 10000 + (0.001 : Rat) * 10000 ∧
      r.carbonBreakdown.userEnd.carbonGrams =
        (r.carbonBreakdown.userEnd.energyJoules / 3600000) * 475 ∧
      r.carbonBreakdown.developerEnd.carbonGrams =
        (r.carbonBreakdown.developerEnd.energyJoules / 3600000) * 475 ∧
      r.carbonBreakdown.serverSide.carbonGrams =
        (r.carbonBreakdown.serverSide.energyJoules / 3600000) * 475 ∧
      r.carbonBreakdown.total.carbonGrams =
        (r.carbonBreakdown.total.energyJoules / 3600000) * 475 ∧
      r.carbonBreakdown.total.energyJoules =
        r.carbonBreakdown.userEnd.energyJoules + r.carbonBreakdown.developerEnd.energyJoules +
          r.carbonBreakdown.serverSide.energyJoules ∧
      r.carbonBreakdown.total.carbonGrams =
        r.carbonBreakdown.userEnd.carbonGrams + r.carbonBreakdown.developerEnd.carbonGrams +
          r.carbonBreakdown.serverSide.carbonGrams := by
  unfold AnalysisResult.carbonBreakdown DEVICE_POWER_OVERHEAD
    ASSUMED_DAILY_USER_EXECUTIONS JOULES_PER_KWH CARBON_INTENSITY_G_PER_KWH
    DEV_ENVIRONMENT_MULTIPLIER SERVER_PUE ASSUMED_DAILY_SERVER_REQUESTS
    NETWORK_ENERGY_PER_REQUEST_J
  dsimp only
  and_intros <;> norm_num <;> ring

/-- The top-level walk pushes one record per `funcDef`, keeping source
order and the short name. -/
theorem pyAnalyzeModule_names (vm : VarMap) :
    ∀ (blk : PyBlock),
      ((pyAnalyzeModule vm blk).1).map FunctionAnalysis.name = pyTopLevelNames blk
  | .nil => rfl
  | .cons s rest => by
      have ih := pyAnalyzeModule_names vm rest
      cases s <;>
        simp only [pyAnalyzeModule, pyTopLevelNames, List.map_cons, ih, pyAnalyzeFunction]

-- =============================================================================
-- Claim C5
-- =============================================================================

/-- C5: `hotspots` is the functions list stably sorted by weighted operations
descending and truncated to five — its length is `min 5 |functions|`, it is
sorted descending, and it equals the take-5 of the spec's tie-broken ordering
(weighted ops descending, ties by definition index); and the Python walker's
`functions` list itself carries the top-level definitions in source order. -/
theorem spec_C5 :
    (∀ r : AnalysisResult,
        r.hotspots.length = min 5 r.functions.length ∧
        List.Sorted hotspotOrder r.hotspots ∧
        r.hotspots = hotspotsByDefinitionOrder r ∧
        (r.functions.insertionSort hotspotOrder).Perm r.functions) ∧
      (∀ (b : PyBlock) (fp : Option String),
        ((pyAnalyze b fp).functions).map FunctionAnalysis.name = pyTopLevelNames b) := by
  constructor
  · intro r
    refine ⟨?_, ?_, ?_, List.perm_insertionSort _ _⟩
    · simp [AnalysisResult.hotspots, List.length_take, List.length_insertionSort]
    · exact (List.sorted_insertionSort hotspotOrder r.functions).sublist
        (List.take_sublist 5 _)
    · unfold AnalysisResult.hotspots hotspotsByDefinitionOrder
      rw [insertionSort_enum r.functions 0, List.map_take]
  · intro b fp
    unfold pyAnalyze
    exact pyAnalyzeModule_names _ b

-- =============================================================================
-- Lemmas: loop-header charge and cascade
-- =============================================================================

/-- What the Python `for_statement` arm computes, pointwise: the header
charges `m × N` comparisons, the body is walked at `m × N`, the `else` body at
`m`, with `N` the estimated iteration count of the iterable. -/
theorem pyFor_eq (vm : VarMap) (iter : PyExpr) (body : PyBlock) (els : PyOptBlock)
    (m : Int) (k : OpType) :
    pyAnalyzeNode vm (.forStmt (.some iter) body els) m k =
      (if k = OpType.comparison then m * pyEstimateForIterations vm iter else 0)
        + pyAnalyzeBlock vm body (m * pyEstimateForIterations vm iter) k
        + (match els with
           | .some b => pyAnalyzeBlock vm b m k
           | .none => 0) := by
  cases els <;>
    (simp only [pyAnalyzeNode, OperationCount.merge_apply, OperationCount.add_apply,
       OperationCount.empty_apply]
     split_ifs <;> ring)

/-- What the C-family `for_statement` arm computes, pointwise: the header
charges `m × N` comparisons, the initializer and condition are analyzed at
`m`, the update at `m × N`, and the body at `m × N`. -/
theorem cfFor_eq (language : String) (vm : VarMap) (init : CfOptStmt) (cond : CfOptExpr)
    (update : CfOptExpr) (body : CfBlock) (m : Int) (k : OpType) :
    cfAnalyzeNode language vm (.forS init cond update body) m k =
      (if k = OpType.comparison then m * cfEstimateForIterations vm init cond update else 0)
        + (match init with
           | .some i => cfAnalyzeNode language vm i m k
           | .none => 0)
        + (match cond with
           | .some c => cfAnalyzeExpr language c m k
           | .none => 0)
        + (match update with
           | .some u => cfAnalyzeExpr language u (m * cfEstimateForIterations vm init cond update) k
           | .none => 0)
        + cfAnalyzeBlock language vm body (m * cfEstimateForIterations vm init cond update) k := by
  cases init <;> cases cond <;> cases update <;>
    (simp only [cfAnalyzeNode, OperationCount.merge_apply, OperationCount.add_apply,
       OperationCount.empty_apply]
     split_ifs <;> ring)

/-- Nesting a statement inside `k` literal `range` loops: each header charges
its prefix-product of comparisons and the statement's own contribution is
scaled by the product of the bounds. -/
theorem nestLoops_cascade (vm : VarMap) (s : PyStmt) :
    ∀ (ns : List Int) (m : Int) (k : OpType), (∀ n ∈ ns, 0 ≤ n) →
      pyAnalyzeNode vm (nestLoops ns s) m k =
        (if k = OpType.comparison then nestHeaderComparisons m ns else 0)
          + ns.prod * pyAnalyzeNode vm s m k := by
  intro ns
  induction ns with
  | nil =>
      intro m k _
      simp [nestLoops, nestHeaderComparisons, List.prod_nil]
  | cons n ns ih =>
      intro m k h
      have hn : 0 ≤ n := h n (List.mem_cons_self n ns)
      have hrest : ∀ x ∈ ns, 0 ≤ x := fun x hx => h x (List.mem_cons_of_mem n hx)
      have hiter :
          pyEstimateForIterations vm (.callE (.cid "range") (.pos (.intLit n) .nil)) = n := by
        simp [pyEstimateForIterations, PyCallee.getCallName, PyArgs.positional,
          estimateRangeIterations, resolveConstantExpr, max_eq_right hn]
      rw [show nestLoops (n :: ns) s =
            .forStmt (.some (.callE (.cid "range") (.pos (.intLit n) .nil)))
              (.cons (nestLoops ns s) .nil) .none from rfl,
        pyFor_eq, hiter]
      simp only [pyAnalyzeBlock, OperationCount.merge_apply, OperationCount.empty_apply]
      rw [ih (m * n) k hrest]
      have hmul : pyAnalyzeNode vm s (m * n) k = n * pyAnalyzeNode vm s m k := by
        rw [mul_comm m n]; exact pyAnalyzeNode_mul vm s n m k
      rw [hmul]
      simp only [nestHeaderComparisons, List.prod_cons]
      split_ifs <;> ring

-- =============================================================================
-- Claim C1
-- =============================================================================

/-- C1: in both AST walkers, a `for` loop with estimated iteration count `N`
analyzed at multiplier `m` charges exactly `m × N` comparisons for the loop
header and analyzes every statement of its body at multiplier `m × N` (the
C-family walker additionally analyzes the initializer and condition at `m` and
the update at `m × N`); the multiplier is a linear parameter of the walk, so a
statement nested inside `k` loops with resolved counts `n₁ … n_k` has its own
contribution multiplied by `n₁ × … × n_k` while each header charges its prefix
product of comparisons. -/
theorem spec_C1 :
    (∀ (vm : VarMap) (iter : PyExpr) (body : PyBlock) (els : PyOptBlock) (m : Int) (k : OpType),
        pyAnalyzeNode vm (.forStmt (.some iter) body els) m k =
          (if k = OpType.comparison then m * pyEstimateForIterations vm iter else 0)
            + pyAnalyzeBlock vm body (m * pyEstimateForIterations vm iter) k
            + (match els with
               | .some b => pyAnalyzeBlock vm b m k
               | .none => 0)) ∧
      (∀ (language : String) (vm : VarMap) (init : CfOptStmt) (cond : CfOptExpr)
          (update : CfOptExpr) (body : CfBlock) (m : Int) (k : OpType),
        cfAnalyzeNode language vm (.forS init cond update body) m k =
          (if k = OpType.comparison then m * cfEstimateForIterations vm init cond update else 0)
            + (match init with
               | .some i => cfAnalyzeNode language vm i m k
               | .none => 0)
            + (match cond with
               | .some c => cfAnalyzeExpr language c m k
               | .none => 0)
            + (match update with
               | .some u =>
                   cfAnalyzeExpr language u (m * cfEstimateForIterations vm init cond update) k
               | .none => 0)
            + cfAnalyzeBlock language vm body (m * cfEstimateForIterations vm init cond update) k) ∧
      (∀ (vm : VarMap) (s : PyStmt) (a m : Int) (k : OpType),
        pyAnalyzeNode vm s (a * m) k = a * pyAnalyzeNode vm s m k) ∧
      (∀ (vm : VarMap) (s : PyStmt) (ns : List Int) (m : Int) (k : OpType),
        (∀ n ∈ ns, 0 ≤ n) →
        pyAnalyzeNode vm (nestLoops ns s) m k =
          (if k = OpType.comparison then nestHeaderComparisons m ns else 0)
            + ns.prod * pyAnalyzeNode vm s m k) :=
  ⟨pyFor_eq, cfFor_eq, pyAnalyzeNode_mul,
    fun vm s ns m k h => nestLoops_cascade vm s ns m k h⟩

/-- Witness for C1's cascade at two concrete nested loops around a `raise`. -/
theorem spec_C1_witness :
    pyAnalyzeNode [] (nestLoops [2, 3] PyStmt.raiseStmt) 1 OpType.function_call =
      (if OpType.function_call = OpType.comparison
        then nestHeaderComparisons 1 [2, 3] else 0)
        + ([(2 : Int), 3].prod * pyAnalyzeNode [] PyStmt.raiseStmt 1 OpType.function_call) := by
  have h := spec_C1.2.2.2 [] PyStmt.raiseStmt [2, 3] 1 OpType.function_call (by decide)
  simpa using h

-- =============================================================================
-- Claim C3
-- =============================================================================

/-- C3: in both walkers an analyzed function's body is counted starting at
multiplier 1; when a call bearing the function's short name appears anywhere
in its body the recursion flag is set and the function's entire counter is
exactly `DEFAULT_RECURSION_DEPTH = 10` times what the same body walk yields,
and when the recursion scan finds nothing the counter is exactly the body walk
at multiplier 1. -/
theorem spec_C3 :
    (∀ (vm : VarMap) (cn : Option String) (name : String) (params : PyExprList)
        (body : PyBlock),
        pyBlockHasCall name body = true →
          (pyAnalyzeFunction vm cn name params body).isRecursive = true ∧
          ∀ k, (pyAnalyzeFunction vm cn name params body).operations k =
            DEFAULT_RECURSION_DEPTH * pyAnalyzeBlock (pyExtractBlock vm body) body 1 k) ∧
      (∀ (vm : VarMap) (cn : Option String) (name : String) (params : PyExprList)
          (body : PyBlock),
        (pyExprListHasCall name params || pyBlockHasCall name body) = false →
          (pyAnalyzeFunction vm cn name params body).operations =
            pyAnalyzeBlock (pyExtractBlock vm body) body 1) ∧
      (∀ (language : String) (vm : VarMap) (cn : Option String) (name : String)
          (params : CfExprList) (body : CfBlock),
        cfBlockHasCall name body = true →
          (cfAnalyzeFunction language vm cn name params body).isRecursive = true ∧
          ∀ k, (cfAnalyzeFunction language vm cn name params body).operations k =
            DEFAULT_RECURSION_DEPTH *
              cfAnalyzeBlock language (cfExtractBlock (cfExtractExprList vm params) body) body 1 k) ∧
      (∀ (language : String) (vm : VarMap) (cn : Option String) (name : String)
          (params : CfExprList) (body : CfBlock),
        (cfExprListHasCall name params || cfBlockHasCall name body) = false →
          (cfAnalyzeFunction language vm cn name params body).operations =
            cfAnalyzeBlock language (cfExtractBlock (cfExtractExprList vm params) body) body 1) := by
  refine ⟨fun vm cn name params body h => ?_, fun vm cn name params body h => ?_,
    fun language vm cn name params body h => ?_, fun language vm cn name params body h => ?_⟩
  · constructor
    · simp [pyAnalyzeFunction, h]
    · intro k
      simp [pyAnalyzeFunction, h, OperationCount.scale_apply, DEFAULT_RECURSION_DEPTH,
        mul_comm]
  · simp [pyAnalyzeFunction, h]
  · constructor
    · simp [cfAnalyzeFunction, h]
    · intro k
      simp [cfAnalyzeFunction, h, OperationCount.scale_apply, DEFAULT_RECURSION_DEPTH,
        mul_comm]
  · simp [cfAnalyzeFunction, h]

/-- Witness for C3 at a concrete self-calling body. -/
theorem spec_C3_witness :
    (pyAnalyzeFunction [] Option.none "f" PyExprList.nil
        (PyBlock.cons
          (PyStmt.exprStmt (PyExprList.cons (PyExpr.callE (PyCallee.cid "f") PyArgs.nil)
            PyExprList.nil))
          PyBlock.nil)).isRecursive = true := by
  have h := spec_C3.1 [] Option.none "f" PyExprList.nil
    (PyBlock.cons
      (PyStmt.exprStmt (PyExprList.cons (PyExpr.callE (PyCallee.cid "f") PyArgs.nil)
        PyExprList.nil))
      PyBlock.nil) (by decide)
  exact h.1

-- =============================================================================
-- Claim C7 (corrected)
-- =============================================================================

/-- C7 counterexample: in the C-family walker a `**` binary expression at
multiplier 1 adds nothing to the multiplication count — it falls into the
unknown-operator default and adds 1 to the addition count — refuting the claim
that both walkers charge `10 × m` multiplications for `**`. -/
theorem spec_C7_counterexample :
    (cfAnalyzeExpr "javascript"
        (CfExpr.binaryE "**" (CfExpr.identE "a") (CfExpr.identE "b")) 1)
      OpType.multiplication = 0 ∧
    (cfAnalyzeExpr "javascript"
        (CfExpr.binaryE "**" (CfExpr.identE "a") (CfExpr.identE "b")) 1)
      OpType.addition = 1 := by
  exact ⟨rfl, rfl⟩

/-- C7 as amended: only the Python walker implements the exponentiation
heuristic, adding `10 × m` multiplications for `**`; the C-family walker has
no `**` arm, so `**` falls through to the unknown-binary default and adds `m`
to the addition count. -/
theorem spec_C7_amended :
    (∀ (l r : PyExpr) (m : Int),
        pyAnalyzeExpr (.binOp "**" l r) m =
          ((OperationCount.empty.add .multiplication (m * 10)).merge
            (pyAnalyzeExpr l m)).merge (pyAnalyzeExpr r m)) ∧
      (∀ (language : String) (l r : CfExpr) (m : Int),
        cfAnalyzeExpr language (.binaryE "**" l r) m =
          ((OperationCount.empty.add .addition m).merge
            (cfAnalyzeExpr language l m)).merge (cfAnalyzeExpr language r m)) :=
  ⟨fun _ _ _ => rfl, fun _ _ _ _ => rfl⟩

-- =============================================================================
-- Claim C9
-- =============================================================================

/-- C9: for a Python `while` whose condition is `x < N` or `x <= N` with the
bound resolving to `n`, the estimate is `max 1 ⌊n / s⌋` when the body's scan
finds an augmented assignment `x += s` with positive resolvable step, and `n`
itself when no such increment is found. -/
theorem spec_C9 (vm : VarMap) (operands : PyExprList) (ops : List String) (x : String)
    (rhs : PyExpr) (body : PyBlock) (n : Int) (op : String)
    (hops : operands.toList = [PyExpr.ident x, rhs])
    (hfilter : ops.filter isComparisonOp = [op])
    (hop : op = "<" ∨ op = "<=")
    (hres : resolveConstantExpr vm rhs = Option.some n) :
    pyEstimateWhileIterations vm (.cmpOp operands ops) body =
      (match pyFindWhileStep vm x body with
       | Option.some s => max 1 (Int.fdiv n s)
       | Option.none => n) := by
  have hop2 : operands = PyExprList.cons (PyExpr.ident x) (PyExprList.cons rhs PyExprList.nil) := by
    cases operands with
    | nil => simp [PyExprList.toList] at hops
    | cons e rest =>
        cases rest with
        | nil => simp [PyExprList.toList] at hops
        | cons e2 rest2 =>
            cases rest2 with
            | nil =>
                simp only [PyExprList.toList, List.cons.injEq, and_true] at hops
                rw [hops.1, hops.2]
            | cons e3 rest3 => simp [PyExprList.toList] at hops
  subst hop2
  simp only [pyEstimateWhileIterations, PyExprList.toList, List.getLast_singleton, hfilter,
    if_pos hop, hres]

/-- Witness for C9 at `while x < 10:` with body `x += 2`. -/
theorem spec_C9_witness :
    pyEstimateWhileIterations []
        (.cmpOp (PyExprList.cons (PyExpr.ident "x")
          (PyExprList.cons (PyExpr.intLit 10) PyExprList.nil)) ["<"])
        (PyBlock.cons (PyStmt.augAssign "x" "+=" (PyExpr.intLit 2)) PyBlock.nil) =
      (match pyFindWhileStep [] "x"
          (PyBlock.cons (PyStmt.augAssign "x" "+=" (PyExpr.intLit 2)) PyBlock.nil) with
       | Option.some s => max 1 (Int.fdiv 10 s)
       | Option.none => 10) := by
  exact spec_C9 [] _ ["<"] "x" (PyExpr.intLit 10) _ 10 "<" rfl rfl (Or.inl rfl) rfl

-- =============================================================================
-- Claim C6 (corrected)
-- =============================================================================

/-- Helper: every fallback result's assumption list opens with the three
notes `RegexAnalyzer.analyze` pushes before extraction begins, followed by
whatever the extraction walk pushed. -/
theorem regexAnalyze_assumptions (language code : String) (fp : Option String) :
    (regexAnalyze language code fp).assumptions =
      ("Regex-based analysis (tree-sitter unavailable) for " ++ language) ::
      "Energy per operation: 3e-9 J" ::
      "Carbon intensity: 475 gCO2/kWh (global average)" ::
      (regexCollected language code).2.2 := rfl

/-- Helper: a fallback result never carries the single undetected-language
assumption — its assumption list has at least three entries. -/
theorem regexAnalyze_not_undetected (language code : String) (fp : Option String) :
    (regexAnalyze language code fp).assumptions ≠ [undetectedMessage] := by
  rw [regexAnalyze_assumptions]
  intro h
  have hlen := congrArg List.length h
  simp only [List.length_cons, List.length_nil] at hlen
  omega

/-- C6 counterexample: on an input with no recognizable features (empty
source, no path) the detector still returns `python` — its default — so the
synchronous estimator takes the regex-fallback path, whose result does have
zero functions but carries the fallback analyzer's three notes rather than
the single undetected-language message the claim requires. -/
theorem spec_C6_counterexample :
    detectLanguage Option.none (Option.some "") = SupportedLanguage.python ∧
      (estimateCarbonFootprintSync "" Option.none Option.none).functions = [] ∧
      (estimateCarbonFootprintSync "" Option.none Option.none).assumptions ≠
        [undetectedMessage] := by
  refine ⟨rfl, rfl, ?_⟩
  exact regexAnalyze_not_undetected "python" "" Option.none

/-- C6 as amended: `detectLanguage` is total over the six language tags (empty
or unrecognizable input defaults to `python`), so `estimate_sync` never takes
its dead undetected-language branch: every call without an override returns
`RegexAnalyzer.analyze`'s result for the detected language, no result's
assumption list is the single undetected-language message (the fallback
always pushes three leading notes first), and the featureless empty input
yields zero functions with exactly those three notes — the regex-fallback
banner for `python`, the energy constant and the carbon intensity. -/
theorem spec_C6_amended :
    (∀ (filePath code : Option String), (detectLanguage filePath code).toStr.isEmpty = false) ∧
      (∀ (code : String) (filePath : Option String),
        estimateCarbonFootprintSync code filePath Option.none =
          regexAnalyze (detectLanguage filePath (Option.some code)).toStr code filePath) ∧
      (∀ (code : String) (filePath languageOverride : Option String),
        (estimateCarbonFootprintSync code filePath languageOverride).assumptions ≠
          [undetectedMessage]) ∧
      (estimateCarbonFootprintSync "" Option.none Option.none).functions = [] ∧
      (estimateCarbonFootprintSync "" Option.none Option.none).assumptions =
        ["Regex-based analysis (tree-sitter unavailable) for python",
         "Energy per operation: 3e-9 J",
         "Carbon intensity: 475 gCO2/kWh (global average)"] := by
  have hne : ∀ l : SupportedLanguage, l.toStr.isEmpty = false := by
    intro l; cases l <;> rfl
  refine ⟨fun fp code => hne _, ?_, ?_, rfl, rfl⟩
  · intro code fp
    unfold estimateCarbonFootprintSync
    rw [if_neg (by simp [hne])]
  · intro code fp ov
    unfold estimateCarbonFootprintSync
    cases ov with
    | none =>
        rw [if_neg (by simp [hne])]
        exact regexAnalyze_not_undetected _ code fp
    | some o =>
        by_cases ho : o.isEmpty
        · simp only [ho, if_true]
          rw [if_neg (by simp [hne])]
          exact regexAnalyze_not_undetected _ code fp
        · simp only [ho, if_false]
          rw [if_neg (by simp [ho])]
          exact regexAnalyze_not_undetected _ code fp
